import Mathlib

/-!
# armethyst, fortnight06: the cache engine and the Core i7 memory hierarchy

A shallow embedding of `memory/cache/FACache.cpp`, `memory/cache/SACache.cpp` and
`memory/Corei7Memory.cpp`.

Conventions of the embedding.

* A C array (`char *data`, `uint64_t *directory`, `FACache **sets`) is a total
  function from indices to contents: `a[i]` is `a i`.  The embedding describes
  the executions whose accesses stay inside the allocated arrays.
* `uint64_t` and `unsigned int` values are natural numbers; the places where
  the C arithmetic wraps carry an explicit `% 2 ^ 64` or `% 2 ^ 32`.
* A byte is a natural number below 256; multi-byte accesses are little-endian.
* Stateful member functions take the object and return the new object together
  with the C++ return value.
-/

namespace Armethyst

/-! ## Bytes and buffers -/

/-- A byte array addressed by index (`char *`). -/
abbrev Buffer := Nat → Nat

/-- The C library call `memcpy(&dst[d], &src[s], n)`. -/
def memcpy (dst : Buffer) (d : Nat) (src : Buffer) (s : Nat) (n : Nat) : Buffer :=
  fun k => if d ≤ k ∧ k < d + n then src (s + (k - d)) else dst k

/-- The access `*((uint32_t *) &b[p])`, read. -/
def load32 (b : Buffer) (p : Nat) : Nat :=
  b p % 256 + 256 * (b (p + 1) % 256) + 65536 * (b (p + 2) % 256)
    + 16777216 * (b (p + 3) % 256)

/-- The access `*((uint64_t *) &b[p])`, read. -/
def load64 (b : Buffer) (p : Nat) : Nat :=
  load32 b p + 4294967296 * load32 b (p + 4)

/-- The access `*((uint32_t *) &b[p]) = v`. -/
def store32 (b : Buffer) (p : Nat) (v : Nat) : Buffer :=
  fun k => if p ≤ k ∧ k < p + 4 then v / 256 ^ (k - p) % 256 else b k

/-- The access `*((uint64_t *) &b[p]) = v`. -/
def store64 (b : Buffer) (p : Nat) (v : Nat) : Buffer :=
  fun k => if p ≤ k ∧ k < p + 8 then v / 256 ^ (k - p) % 256 else b k

/-- The operator `~` on a `uint64_t`. -/
def not64 (x : Nat) : Nat := (2 ^ 64 - 1) ^^^ (x % 2 ^ 64)

/-- The constant `~1` converted to `uint64_t`: every bit but the lowest. -/
def clearDirty : Nat := 2 ^ 64 - 2

/-! ## The absent `Cache` base class -/

/-- Modelled from the spec: `Cache::potencia2`, declared and defined in the
absent `Cache` base class.  It decides whether its `unsigned int` argument is
a power of two (the configuration values are "all required to be powers of
two"); zero is not a power of two. -/
def potencia2 (x : Nat) : Bool := (List.range 32).any (fun k => x == 2 ^ k)

/-- The result of running a constructor. -/
inductive Construction (α : Type) where
  /-- the constructor returned and the object exists -/
  | built : α → Construction α
  /-- the constructor left through `throw "Bad FACache initialization. Invalid arguments."` -/
  | thrown : Construction α
  /-- an unsigned division by zero was evaluated (undefined behaviour; no
  exception is thrown by it) -/
  | divisionByZero : Construction α

/-! ## FACache -/

/-- The attributes of a `FACache` object (those inherited from `Cache`
included).  The type of `offsetMask` is declared in the absent header; it is
taken as `uint64_t`, the type of the address it is applied to. -/
structure FACache where
  size : Nat
  lineSize : Nat
  associativity : Nat
  numSets : Nat
  offsetMask : Nat
  writeIndex : Nat
  directory : Nat → Nat
  data : Buffer

/-- What the storage of a new `FACache` holds before anything is written to
it: `new char[size]` and `new uint64_t[associativity]` are not initialised by
the constructor, and `writeIndex` is not assigned in `FACache.cpp`. -/
structure RawStorage where
  directory : Nat → Nat
  data : Buffer
  writeIndex : Nat

namespace FACache

/-- Member function `FACache::splitAddress`: the pair `(tag, offset)`. -/
def splitAddress (c : FACache) (address : Nat) : Nat × Nat :=
  (address &&& not64 c.offsetMask, address &&& c.offsetMask)

/-- The loop of `FACache::findTag`, from slot `i` with `n` slots left. -/
def findTagLoop (directory : Nat → Nat) (tag : Nat) : Nat → Nat → Option Nat
  | _, 0 => none
  | i, n + 1 =>
    if directory i &&& clearDirty = tag then some i
    else findTagLoop directory tag (i + 1) n

/-- Member function `FACache::findTag`: `some idx` for `true` with `idx` set, `none` for `false`. -/
def findTag (c : FACache) (tag : Nat) : Option Nat :=
  findTagLoop c.directory tag 0 c.associativity

/-- Member function `FACache::setDirty`. -/
def setDirty (c : FACache) (idx : Nat) : FACache :=
  { c with directory := fun j => if j = idx then c.directory j ||| 1 else c.directory j }

/-- Member function `FACache::isDirty`. -/
def isDirty (c : FACache) (idx : Nat) : Bool :=
  (c.directory idx &&& 1) == 1

/-- The constructor `FACache::FACache(size, lineSize)`.  The base-class
initialiser evaluates `size/lineSize` before the body runs. -/
def construct (size lineSize : Nat) (raw : RawStorage) : Construction FACache :=
  if lineSize = 0 then Construction.divisionByZero
  else
    let associativity := size / lineSize
    let validArgs := decide (associativity * lineSize % 2 ^ 32 = size)
    let validArgs := validArgs && potencia2 size && potencia2 lineSize && potencia2 associativity
    if !validArgs then Construction.thrown
    else Construction.built
      { size := size
        lineSize := lineSize
        associativity := associativity
        numSets := 1
        offsetMask := lineSize - 1
        writeIndex := raw.writeIndex
        directory := raw.directory
        data := raw.data }

/-- Member function `FACache::read32`: `none` for a miss, `some value` for a hit. -/
def read32 (c : FACache) (address : Nat) : Option Nat :=
  let (tag, offset) := c.splitAddress address
  match c.findTag tag with
  | none => none
  | some i => some (load32 c.data (i * c.lineSize + offset))

/-- Member function `FACache::read64`. -/
def read64 (c : FACache) (address : Nat) : Option Nat :=
  let (tag, offset) := c.splitAddress address
  match c.findTag tag with
  | none => none
  | some i => some (load64 c.data (i * c.lineSize + offset))

/-- Member function `FACache::write32`: the new state and the returned flag. -/
def write32 (c : FACache) (address value : Nat) : FACache × Bool :=
  let (tag, offset) := c.splitAddress address
  match c.findTag tag with
  | none => (c, false)
  | some i =>
    (setDirty { c with data := store32 c.data (i * c.lineSize + offset) value } i, true)

/-- Member function `FACache::write64`. -/
def write64 (c : FACache) (address value : Nat) : FACache × Bool :=
  let (tag, offset) := c.splitAddress address
  match c.findTag tag with
  | none => (c, false)
  | some i =>
    (setDirty { c with data := store64 c.data (i * c.lineSize + offset) value } i, true)

/-- The slot `FACache::fetchLine` writes to (`localWriteIndex`). -/
def victim (c : FACache) (address : Nat) : Nat :=
  match c.findTag (c.splitAddress address).1 with
  | some i => i
  | none => c.writeIndex

/-- Member function `FACache::fetchLine`: the new state and, when the returned pointer is not
`NULL`, the copy of the removed line with the value stored in `oldLine`. -/
def fetchLine (c : FACache) (address : Nat) (data : Buffer) :
    FACache × Option (Buffer × Nat) :=
  let tag := (c.splitAddress address).1
  let localWriteIndex := c.victim address
  let removedLine :=
    if c.isDirty localWriteIndex then
      some (memcpy (fun _ => 0) 0 c.data (localWriteIndex * c.lineSize) c.lineSize,
            c.directory localWriteIndex &&& clearDirty)
    else none
  ({ c with
      data := memcpy c.data (localWriteIndex * c.lineSize) data tag c.lineSize
      writeIndex := (c.writeIndex + 1) % c.associativity },
   removedLine)

end FACache

/-! ## SACache -/

/-- The scan behind `ffs` of `strings.h`, from bit `i` with `n` bits left. -/
def ffsLoop (x : Nat) : Nat → Nat → Nat
  | _, 0 => 0
  | i, n + 1 => if x.testBit i then i + 1 else ffsLoop x (i + 1) n

/-- The library function `ffs` on a 32-bit argument: one plus the index of the
least significant set bit, zero when no bit is set. -/
def ffs (x : Nat) : Nat := ffsLoop x 0 32

/-- The attributes of a `SACache` object.  The masks are declared in the
absent header; they are taken as `uint64_t`, as the address they are applied
to. -/
structure SACache where
  size : Nat
  lineSize : Nat
  associativity : Nat
  numSets : Nat
  offsetMask : Nat
  lookupShift : Nat
  lookupMask : Nat
  sets : Nat → FACache

/-- The object standing at the indices of `sets` beyond `numSets`, which the
constructor does not allocate and no member function reaches. -/
def FACache.unallocated : FACache :=
  { size := 0, lineSize := 0, associativity := 0, numSets := 0, offsetMask := 0
    writeIndex := 0, directory := fun _ => 0, data := fun _ => 0 }

namespace SACache

/-- The loop `for (i = 0; i < numSets; i++) sets[i] = new FACache(size / numSets, lineSize)`
of the constructor, run for the first `n` indices. -/
def buildSets (setSize lineSize : Nat) (raw : Nat → RawStorage) :
    Nat → Construction (Nat → FACache)
  | 0 => Construction.built (fun _ => FACache.unallocated)
  | n + 1 =>
    match buildSets setSize lineSize raw n with
    | Construction.built sets =>
      match FACache.construct setSize lineSize (raw n) with
      | Construction.built c => Construction.built (fun j => if j = n then c else sets j)
      | Construction.thrown => Construction.thrown
      | Construction.divisionByZero => Construction.divisionByZero
    | Construction.thrown => Construction.thrown
    | Construction.divisionByZero => Construction.divisionByZero

/-- The constructor `SACache::SACache(size, lineSize, associativity)`;
`raw i` is the uninitialised storage of the `i`-th set. -/
def construct (size lineSize associativity : Nat) (raw : Nat → RawStorage) :
    Construction SACache :=
  if associativity = 0 ∨ lineSize = 0 then Construction.divisionByZero
  else
    let numSets := size / associativity / lineSize
    let validArgs := decide (numSets * associativity * lineSize % 2 ^ 32 = size)
    let validArgs := validArgs && potencia2 size && potencia2 numSets && potencia2 lineSize
      && potencia2 associativity
    if !validArgs then Construction.thrown
    else
      let lookupShift := ffs lineSize - 1
      match buildSets (size / numSets) lineSize raw numSets with
      | Construction.built sets =>
        Construction.built
          { size := size
            lineSize := lineSize
            associativity := associativity
            numSets := numSets
            offsetMask := lineSize - 1
            lookupShift := lookupShift
            lookupMask := ((numSets - 1) <<< lookupShift) % 2 ^ 32
            sets := sets }
      | Construction.thrown => Construction.thrown
      | Construction.divisionByZero => Construction.divisionByZero

/-- Member function `SACache::splitAddress`: the triple `(tag, lookup, offset)`. -/
def splitAddress (c : SACache) (address : Nat) : Nat × Nat × Nat :=
  (address &&& not64 (c.offsetMask ||| c.lookupMask),
   (address &&& c.lookupMask) >>> c.lookupShift,
   address &&& c.offsetMask)

/-- The set an address is dispatched to (`lookup`). -/
def lookup (c : SACache) (address : Nat) : Nat := (c.splitAddress address).2.1

/-- Member function `SACache::read32`. -/
def read32 (c : SACache) (address : Nat) : Option Nat :=
  (c.sets (c.lookup address)).read32 address

/-- Member function `SACache::read64`. -/
def read64 (c : SACache) (address : Nat) : Option Nat :=
  (c.sets (c.lookup address)).read64 address

/-- The object after the selected set has been replaced by `s`. -/
def withSet (c : SACache) (idx : Nat) (s : FACache) : SACache :=
  { c with sets := fun j => if j = idx then s else c.sets j }

/-- Member function `SACache::write32`. -/
def write32 (c : SACache) (address value : Nat) : SACache × Bool :=
  let r := (c.sets (c.lookup address)).write32 address value
  (c.withSet (c.lookup address) r.1, r.2)

/-- Member function `SACache::write64`. -/
def write64 (c : SACache) (address value : Nat) : SACache × Bool :=
  let r := (c.sets (c.lookup address)).write64 address value
  (c.withSet (c.lookup address) r.1, r.2)

/-- Member function `SACache::fetchLine`, forwarding to the selected set.  `SACache.cpp` shows
the two-argument form while `Corei7Memory.cpp` calls it, and `FACache.cpp`
defines it, with the third argument `oldLine`; the value the set stores in
`oldLine` is passed through. -/
def fetchLine (c : SACache) (address : Nat) (data : Buffer) :
    SACache × Option (Buffer × Nat) :=
  let r := (c.sets (c.lookup address)).fetchLine address data
  (c.withSet (c.lookup address) r.1, r.2)

end SACache

/-! ## The collaborators of the controller -/

/-- Modelled from the spec: `BasicMemory`, the backing store, whose source is
absent: "a flat, byte-addressable array representing main memory; exposes
aligned 32/64-bit read/write and raw-buffer access". -/
structure BasicMemory where
  size : Nat
  data : Buffer

namespace BasicMemory

/-- Modelled from the spec: `BasicMemory::getData`, the raw byte buffer. -/
def getData (m : BasicMemory) : Buffer := m.data

/-- Modelled from the spec: the aligned 32-bit read `BasicMemory::readInstruction32`. -/
def readInstruction32 (m : BasicMemory) (address : Nat) : Nat :=
  load32 m.data (address / 4 * 4)

/-- Modelled from the spec: the aligned 32-bit read `BasicMemory::readData32`. -/
def readData32 (m : BasicMemory) (address : Nat) : Nat :=
  load32 m.data (address / 4 * 4)

/-- Modelled from the spec: the aligned 64-bit read `BasicMemory::readData64`. -/
def readData64 (m : BasicMemory) (address : Nat) : Nat :=
  load64 m.data (address / 8 * 8)

/-- Modelled from the spec: the aligned 32-bit write `BasicMemory::writeInstruction32`. -/
def writeInstruction32 (m : BasicMemory) (address value : Nat) : BasicMemory :=
  { m with data := store32 m.data (address / 4 * 4) value }

end BasicMemory

/-- The event kinds of `MemoryLogger`. -/
inductive EventKind where
  | READI | READ32 | READ64 | WRITE32 | WRITE64
  deriving DecidableEq, Repr

/-- Modelled from the spec: one record of the access log,
`record(eventKind, address, hitLevel)`. -/
structure LogRecord where
  kind : EventKind
  address : Nat
  hitLevel : Nat
  deriving DecidableEq, Repr

/-! ## Corei7Memory -/

/-- The attributes of a `Corei7Memory` object; `log` is the sequence of
records handed to `logger->memlog`, oldest first. -/
structure Corei7Memory where
  l1i : SACache
  l1d : SACache
  l2 : SACache
  mainMemory : BasicMemory
  log : List LogRecord

/-- The uninitialised storage the three caches and the backing store of a new
hierarchy start from. -/
structure RawHierarchy where
  l1i : Nat → RawStorage
  l1d : Nat → RawStorage
  l2 : Nat → RawStorage
  mainMemory : Buffer

namespace Corei7Memory

/-- The constructor `Corei7Memory::Corei7Memory(size)` with `initHierarchy`
inlined: a new logger, the three caches with their hard-coded dimensions, then
the main memory. -/
def construct (size : Nat) (raw : RawHierarchy) : Construction Corei7Memory :=
  match SACache.construct (2 * 1024) 64 (2 * 1024 / 64 / 4) raw.l1i with
  | Construction.built l1i =>
    match SACache.construct (2 * 1024) 64 (2 * 1024 / 64 / 8) raw.l1d with
    | Construction.built l1d =>
      match SACache.construct (8 * 1024) 64 (8 * 1024 / 64 / 8) raw.l2 with
      | Construction.built l2 =>
        Construction.built
          { l1i := l1i, l1d := l1d, l2 := l2
            mainMemory := { size := size, data := raw.mainMemory }
            log := [] }
      | Construction.thrown => Construction.thrown
      | Construction.divisionByZero => Construction.divisionByZero
    | Construction.thrown => Construction.thrown
    | Construction.divisionByZero => Construction.divisionByZero
  | Construction.thrown => Construction.thrown
  | Construction.divisionByZero => Construction.divisionByZero

/-- The statement `logger->memlog(kind, address, hitLevel)`. -/
def memlog (m : Corei7Memory) (kind : EventKind) (address hitLevel : Nat) : Corei7Memory :=
  { m with log := m.log ++ [{ kind := kind, address := address, hitLevel := hitLevel }] }

/-- The block `if ((data = l2->fetchLine(address, mainMemory->getData(), oldLine)))
{ memcpy(&mainMemory->getData()[address+oldLine], data, 64); }`, common to the
five cached operations. -/
def fetchIntoL2 (m : Corei7Memory) (address : Nat) : Corei7Memory :=
  match m.l2.fetchLine address m.mainMemory.getData with
  | (l2, some (data, oldLine)) =>
    { m with
        l2 := l2
        mainMemory :=
          { m.mainMemory with
              data := memcpy m.mainMemory.getData ((address + oldLine) % 2 ^ 64) data 0 64 } }
  | (l2, none) => { m with l2 := l2 }

/-- The statement `l1i->fetchLine(address, mainMemory->getData(), oldLine)`,
whose result is discarded. -/
def fetchIntoL1i (m : Corei7Memory) (address : Nat) : Corei7Memory :=
  { m with l1i := (m.l1i.fetchLine address m.mainMemory.getData).1 }

/-- The statement `l1d->fetchLine(address, mainMemory->getData(), oldLine)`,
whose result is discarded. -/
def fetchIntoL1d (m : Corei7Memory) (address : Nat) : Corei7Memory :=
  { m with l1d := (m.l1d.fetchLine address m.mainMemory.getData).1 }

/-- Member function `Corei7Memory::readInstruction32`: the new state and the returned value. -/
def readInstruction32 (m : Corei7Memory) (address : Nat) : Corei7Memory × Nat :=
  let (value, hitLevel) :=
    match m.l1i.read32 address with
    | some v => (v, 1)
    | none =>
      match m.l2.read32 address with
      | some v => (v, 2)
      | none => (m.mainMemory.readInstruction32 address, 3)
  let m := if hitLevel > 1 then m.fetchIntoL1i address else m
  let m := if hitLevel > 2 then m.fetchIntoL2 address else m
  (m.memlog EventKind.READI address hitLevel, value)

/-- Member function `Corei7Memory::readData32`. -/
def readData32 (m : Corei7Memory) (address : Nat) : Corei7Memory × Nat :=
  let (value, hitLevel) :=
    match m.l1d.read32 address with
    | some v => (v, 1)
    | none =>
      match m.l2.read32 address with
      | some v => (v, 2)
      | none => (m.mainMemory.readData32 address, 3)
  let m := if hitLevel > 1 then m.fetchIntoL1d address else m
  let m := if hitLevel > 2 then m.fetchIntoL2 address else m
  (m.memlog EventKind.READ32 address hitLevel, value)

/-- Member function `Corei7Memory::readData64`; a hit in `l1d` returns at once. -/
def readData64 (m : Corei7Memory) (address : Nat) : Corei7Memory × Nat :=
  match m.l1d.read64 address with
  | some v => (m, v)
  | none =>
    let (value, hitLevel) :=
      match m.l2.read64 address with
      | some v => (v, 2)
      | none => (m.mainMemory.readData64 address, 3)
    let m := if hitLevel > 1 then m.fetchIntoL1d address else m
    let m := if hitLevel > 2 then m.fetchIntoL2 address else m
    (m.memlog EventKind.READ64 address hitLevel, value)

/-- Member function `Corei7Memory::writeInstruction32`. -/
def writeInstruction32 (m : Corei7Memory) (address value : Nat) : Corei7Memory :=
  { m with mainMemory := m.mainMemory.writeInstruction32 address value }

/-- Member function `Corei7Memory::writeData32`. -/
def writeData32 (m : Corei7Memory) (address value : Nat) : Corei7Memory :=
  let m := { m with l1d := (m.l1d.write32 address value).1 }
  let r := m.l2.write32 address value
  let m := { m with l2 := r.1 }
  let hitLevel := if r.2 then 2 else 3
  let m :=
    if hitLevel > 2 then
      let m := m.fetchIntoL2 address
      { m with l2 := (m.l2.write32 address value).1 }
    else m
  m.memlog EventKind.WRITE32 address hitLevel

/-- Member function `Corei7Memory::writeData64`. -/
def writeData64 (m : Corei7Memory) (address value : Nat) : Corei7Memory :=
  let m := { m with l1d := (m.l1d.write64 address value).1 }
  let r := m.l2.write64 address value
  let m := { m with l2 := r.1 }
  let hitLevel := if r.2 then 2 else 3
  let m :=
    if hitLevel > 2 then
      let m := m.fetchIntoL2 address
      { m with l2 := (m.l2.write64 address value).1 }
    else m
  m.memlog EventKind.WRITE64 address hitLevel

/-- The hit level of the record an operation appended last, if any. -/
def lastHitLevel (m : Corei7Memory) : Option Nat := m.log.getLast?.map LogRecord.hitLevel

end Corei7Memory

/-! ## Scenarios -/

/-- Storage that happens to be zero-filled when the constructor receives it. -/
def zeroStorage : RawStorage :=
  { directory := fun _ => 0, data := fun _ => 0, writeIndex := 0 }

/-- A hierarchy all of whose storage happens to be zero-filled. -/
def zeroHierarchy : RawHierarchy :=
  { l1i := fun _ => zeroStorage, l1d := fun _ => zeroStorage, l2 := fun _ => zeroStorage
    mainMemory := fun _ => 0 }

/-- Storage in which every directory entry reads `1`. -/
def onesStorage : RawStorage :=
  { directory := fun _ => 1, data := fun _ => 0, writeIndex := 0 }

/-- A hierarchy whose storage is zero-filled except for the first directory
entry of set 0 of the shared L2, which reads `0x1000`. -/
def staleHierarchy : RawHierarchy :=
  { zeroHierarchy with
      l2 := fun s =>
        if s = 0 then { zeroStorage with directory := fun i => if i = 0 then 4096 else 0 }
        else zeroStorage }

/-- A backing buffer in which every byte holds the number of its 64-byte line. -/
def lineStamp : Buffer := fun k => k / 64

/-- The calls `fetchLine(a, src)` for the addresses `a` of a list, in order. -/
def FACache.fetchAll (c : FACache) (addresses : List Nat) (src : Buffer) : FACache :=
  addresses.foldl (fun c a => (c.fetchLine a src).1) c

/-- A backing buffer in which every byte holds its own index modulo 251. -/
def byteRamp : Buffer := fun k => k % 251

/-- The 256-byte cache with 64-byte lines the constructor builds on zero-filled
storage: every directory entry reads 0 and the FIFO cursor is 0. -/
def zeroCache : FACache :=
  { size := 256, lineSize := 64, associativity := 4, numSets := 1, offsetMask := 63
    writeIndex := 0, directory := fun _ => 0, data := fun _ => 0 }

/-- The cache `zeroCache` after line 0 has been fetched and written to
(`write32(0, 0xDEADBEEF)`) and lines 64, 128 and 192 have been fetched. -/
def evictionScenario : FACache :=
  ((zeroCache.fetchLine 0 byteRamp).1.write32 0 3735928559).1.fetchAll [64, 128, 192] byteRamp

/-- A hierarchy whose storage is zero-filled except for the first directory
entry of set 0 of the data cache, which reads `0x1000`. -/
def staleL1Hierarchy : RawHierarchy :=
  { zeroHierarchy with
      l1d := fun s =>
        if s = 0 then { zeroStorage with directory := fun i => if i = 0 then 4096 else 0 }
        else zeroStorage }

/-- The directory of a cache with the dirty bit of slot `idx` cleared
(`directory[idx] &= ~1`, the converse of `setDirty`). -/
def FACache.clearDirtyBit (c : FACache) (idx : Nat) : FACache :=
  { c with
      directory := fun j => if j = idx then c.directory j &&& clearDirty else c.directory j }

/-- A set-associative cache of 2 KiB with 64-byte lines, 4 ways and 8 sets, each
of whose sets is `zeroCache`. -/
def zeroSetCache : SACache :=
  { size := 2048, lineSize := 64, associativity := 4, numSets := 8, offsetMask := 63
    lookupShift := 6, lookupMask := 448, sets := fun _ => zeroCache }

/-- Tag/data consistency of a cache with a backing buffer: every slot whose
directory entry is a clean tag `T` holds the bytes `src[T .. T+lineSize)`. -/
def FACache.consistent (c : FACache) (src : Buffer) : Prop :=
  ∀ i, i < c.associativity → c.isDirty i = false →
    ∀ k, k < c.lineSize → c.data (i * c.lineSize + k) = src (c.directory i + k)

/-! # Theorems -/

/-! ## The constructors -/

/-- The function `potencia2` holds exactly of the powers of two an
`unsigned int` can hold. -/
theorem potencia2_iff (x : Nat) : potencia2 x = true ↔ ∃ k, k < 32 ∧ x = 2 ^ k := by
  simp [potencia2, List.any_eq_true]

/-- Below `2 ^ 32`, `potencia2` holds exactly of the powers of two. -/
theorem potencia2_iff_pow (x : Nat) (hx : x < 2 ^ 32) : potencia2 x = true ↔ ∃ k, x = 2 ^ k := by
  rw [potencia2_iff]
  constructor
  · rintro ⟨k, _, h⟩; exact ⟨k, h⟩
  · rintro ⟨k, h⟩
    refine ⟨k, ?_, h⟩
    rw [h] at hx
    exact (Nat.pow_lt_pow_iff_right (by norm_num)).1 hx

/-- Zero is not a power of two for `potencia2`. -/
theorem potencia2_zero : potencia2 0 = false := by decide

/-- An argument that is no power of two fails `potencia2`. -/
theorem potencia2_eq_false (x : Nat) (h : ¬ ∃ k, x = 2 ^ k) : potencia2 x = false := by
  rw [Bool.eq_false_iff]
  intro hp
  exact h ⟨_, ((potencia2_iff x).1 hp).choose_spec.2⟩

/-- With a non-zero line size, `FACache::FACache` throws on every size or
line size that is not a power of two and on every size that is not a multiple
of the line size. -/
theorem FACache.construct_thrown (size lineSize : Nat) (raw : RawStorage)
    (hsize : size < 2 ^ 32) (hline : lineSize ≠ 0)
    (hbad : (¬ ∃ k, size = 2 ^ k) ∨ (¬ ∃ k, lineSize = 2 ^ k) ∨ ¬ lineSize ∣ size) :
    FACache.construct size lineSize raw = Construction.thrown := by
  have hle : size / lineSize * lineSize ≤ size := Nat.div_mul_le_self size lineSize
  have hmod : size / lineSize * lineSize % 2 ^ 32 = size / lineSize * lineSize :=
    Nat.mod_eq_of_lt (lt_of_le_of_lt hle hsize)
  have hfalse : (decide (size / lineSize * lineSize % 2 ^ 32 = size) && potencia2 size
      && potencia2 lineSize && potencia2 (size / lineSize)) = false := by
    rcases hbad with h | h | h
    · simp [potencia2_eq_false size h]
    · simp [potencia2_eq_false lineSize h]
    · have : ¬ size / lineSize * lineSize % 2 ^ 32 = size := by
        rw [hmod]; intro he; exact h (Dvd.intro_left _ he)
      rw [decide_eq_false this]; rfl
  unfold FACache.construct
  simp only [hline, if_false]
  simp only [hfalse]
  rfl

/-- With non-zero line size and associativity, `SACache::SACache` throws on
every argument that is not a power of two and on every size that is not a
multiple of `lineSize * associativity`. -/
theorem SACache.sa_construct_thrown (size lineSize associativity : Nat) (raw : Nat → RawStorage)
    (hsize : size < 2 ^ 32) (hline : lineSize ≠ 0) (hassoc : associativity ≠ 0)
    (hbad : (¬ ∃ k, size = 2 ^ k) ∨ (¬ ∃ k, lineSize = 2 ^ k) ∨
      (¬ ∃ k, associativity = 2 ^ k) ∨ ¬ lineSize * associativity ∣ size) :
    SACache.construct size lineSize associativity raw = Construction.thrown := by
  have hle : size / associativity / lineSize * associativity * lineSize ≤ size := by
    rw [Nat.div_div_eq_div_mul, Nat.mul_assoc]
    exact Nat.div_mul_le_self size _
  have hmod : size / associativity / lineSize * associativity * lineSize % 2 ^ 32
      = size / associativity / lineSize * associativity * lineSize :=
    Nat.mod_eq_of_lt (lt_of_le_of_lt hle hsize)
  have hfalse : (decide (size / associativity / lineSize * associativity * lineSize % 2 ^ 32
      = size) && potencia2 size && potencia2 (size / associativity / lineSize)
      && potencia2 lineSize && potencia2 associativity) = false := by
    rcases hbad with h | h | h | h
    · simp [potencia2_eq_false size h]
    · simp [potencia2_eq_false lineSize h]
    · simp [potencia2_eq_false associativity h]
    · have : ¬ size / associativity / lineSize * associativity * lineSize % 2 ^ 32 = size := by
        rw [hmod]; intro he
        exact h (Dvd.intro_left _ ((by ring : size / associativity / lineSize
          * (lineSize * associativity)
          = size / associativity / lineSize * associativity * lineSize).trans he))
      rw [decide_eq_false this]; rfl
  unfold SACache.construct
  have hz : ¬ (associativity = 0 ∨ lineSize = 0) := by simp [hline, hassoc]
  simp only [hz, if_false]
  simp only [hfalse]
  rfl

/-! ## fetchLine and the directory -/

/-- The call `fetchLine` writes to `data` and `writeIndex` only: the directory
is the one it found. -/
theorem FACache.directory_fetchLine (c : FACache) (a : Nat) (src : Buffer) :
    (c.fetchLine a src).1.directory = c.directory := rfl

/-- A lookup gives the same answer after a `fetchLine` as before it. -/
theorem FACache.findTag_fetchLine (c : FACache) (a : Nat) (src : Buffer) (t : Nat) :
    (c.fetchLine a src).1.findTag t = c.findTag t := rfl

/-- A lookup gives the same answer after any sequence of `fetchLine` calls. -/
theorem FACache.findTag_fetchAll (addresses : List Nat) (src : Buffer) (t : Nat) :
    ∀ c : FACache, (c.fetchAll addresses src).findTag t = c.findTag t := by
  induction addresses with
  | nil => intro c; rfl
  | cons a rest ih =>
    intro c
    show ((c.fetchLine a src).1.fetchAll rest src).findTag t = c.findTag t
    rw [ih, FACache.findTag_fetchLine]

/-- A 32-bit read hits after a `fetchLine` exactly when it hit before. -/
theorem FACache.read32_fetchLine_isSome (c : FACache) (a b : Nat) (src : Buffer) :
    ((c.fetchLine a src).1.read32 b).isSome = (c.read32 b).isSome := by
  simp only [FACache.read32, FACache.splitAddress, FACache.fetchLine]
  show (match c.findTag _ with | none => none | some i => some _ : Option Nat).isSome = _
  cases c.findTag (b &&& not64 c.offsetMask) <;> rfl

/-- A 64-bit read hits after a `fetchLine` exactly when it hit before. -/
theorem FACache.read64_fetchLine_isSome (c : FACache) (a b : Nat) (src : Buffer) :
    ((c.fetchLine a src).1.read64 b).isSome = (c.read64 b).isSome := by
  simp only [FACache.read64, FACache.splitAddress, FACache.fetchLine]
  show (match c.findTag _ with | none => none | some i => some _ : Option Nat).isSome = _
  cases c.findTag (b &&& not64 c.offsetMask) <;> rfl

/-- In a set-associative cache a 32-bit read hits after a `fetchLine` exactly
when it hit before. -/
theorem SACache.sa_read32_fetchLine_isSome (c : SACache) (a b : Nat) (src : Buffer) :
    ((c.fetchLine a src).1.read32 b).isSome = (c.read32 b).isSome := by
  simp only [SACache.read32, SACache.fetchLine, SACache.withSet]
  show (FACache.read32 (if c.lookup b = c.lookup a then _ else _) b).isSome = _
  split
  · rename_i h; rw [FACache.read32_fetchLine_isSome, h]
  · rfl

/-- In a set-associative cache a 64-bit read hits after a `fetchLine` exactly
when it hit before. -/
theorem SACache.sa_read64_fetchLine_isSome (c : SACache) (a b : Nat) (src : Buffer) :
    ((c.fetchLine a src).1.read64 b).isSome = (c.read64 b).isSome := by
  simp only [SACache.read64, SACache.fetchLine, SACache.withSet]
  show (FACache.read64 (if c.lookup b = c.lookup a then _ else _) b).isSome = _
  split
  · rename_i h; rw [FACache.read64_fetchLine_isSome, h]
  · rfl

/-- A read of a set-associative cache hits exactly when the directory of the
set the address selects holds the tag of the line of the address. -/
theorem SACache.read32_isSome_iff (c : SACache) (A : Nat) :
    (c.read32 A).isSome ↔
      ∃ i, (c.sets (c.lookup A)).findTag ((c.sets (c.lookup A)).splitAddress A).1 = some i := by
  unfold SACache.read32 FACache.read32
  cases h : (c.sets (c.lookup A)).findTag ((c.sets (c.lookup A)).splitAddress A).1 <;> simp [h]

/-! ## The controller -/

namespace Corei7Memory

/-- Fetching into the shared L2 puts the result of `fetchLine` in `l2`. -/
theorem fetchIntoL2_l2 (m : Corei7Memory) (A : Nat) :
    (m.fetchIntoL2 A).l2 = (m.l2.fetchLine A m.mainMemory.getData).1 := by
  unfold fetchIntoL2
  rcases h : m.l2.fetchLine A m.mainMemory.getData with ⟨l2, _ | ⟨d, o⟩⟩ <;> simp [h]

/-- Fetching into the shared L2 leaves the data cache alone. -/
theorem fetchIntoL2_l1d (m : Corei7Memory) (A : Nat) : (m.fetchIntoL2 A).l1d = m.l1d := by
  unfold fetchIntoL2
  rcases h : m.l2.fetchLine A m.mainMemory.getData with ⟨l2, _ | ⟨d, o⟩⟩ <;> simp [h]

/-- Fetching into the shared L2 leaves the instruction cache alone. -/
theorem fetchIntoL2_l1i (m : Corei7Memory) (A : Nat) : (m.fetchIntoL2 A).l1i = m.l1i := by
  unfold fetchIntoL2
  rcases h : m.l2.fetchLine A m.mainMemory.getData with ⟨l2, _ | ⟨d, o⟩⟩ <;> simp [h]

/-- Fetching into the shared L2 logs nothing. -/
theorem fetchIntoL2_log (m : Corei7Memory) (A : Nat) : (m.fetchIntoL2 A).log = m.log := by
  unfold fetchIntoL2
  rcases h : m.l2.fetchLine A m.mainMemory.getData with ⟨l2, _ | ⟨d, o⟩⟩ <;> simp [h]

/-- The record `readInstruction32` appends. -/
theorem readInstruction32_log (m : Corei7Memory) (A : Nat) :
    (m.readInstruction32 A).1.log = m.log ++ [⟨EventKind.READI, A,
      if (m.l1i.read32 A).isSome then 1 else if (m.l2.read32 A).isSome then 2 else 3⟩] := by
  unfold readInstruction32
  cases h1 : m.l1i.read32 A with
  | some v => simp [memlog]
  | none =>
    cases h2 : m.l2.read32 A with
    | some v => simp [memlog, fetchIntoL1i]
    | none => simp [memlog, fetchIntoL1i, fetchIntoL2_log]

/-- The value `readInstruction32` returns. -/
theorem readInstruction32_value (m : Corei7Memory) (A : Nat) :
    (m.readInstruction32 A).2 =
      (m.l1i.read32 A <|> m.l2.read32 A).getD (m.mainMemory.readInstruction32 A) := by
  unfold readInstruction32
  cases h1 : m.l1i.read32 A with
  | some v => simp
  | none =>
    cases h2 : m.l2.read32 A with
    | some v => simp
    | none => simp

/-- After `readInstruction32` a read of the instruction cache hits exactly
when it hit before. -/
theorem readInstruction32_l1i_isSome (m : Corei7Memory) (A B : Nat) :
    ((m.readInstruction32 A).1.l1i.read32 B).isSome = (m.l1i.read32 B).isSome := by
  unfold readInstruction32
  cases h1 : m.l1i.read32 A with
  | some v => simp [memlog]
  | none =>
    cases h2 : m.l2.read32 A with
    | some v => simp [memlog, fetchIntoL1i, SACache.sa_read32_fetchLine_isSome]
    | none => simp [memlog, fetchIntoL1i, fetchIntoL2_l1i, SACache.sa_read32_fetchLine_isSome]

/-- After `readInstruction32` a read of the shared L2 hits exactly when it hit
before. -/
theorem readInstruction32_l2_isSome (m : Corei7Memory) (A B : Nat) :
    ((m.readInstruction32 A).1.l2.read32 B).isSome = (m.l2.read32 B).isSome := by
  unfold readInstruction32
  cases h1 : m.l1i.read32 A with
  | some v => simp [memlog]
  | none =>
    cases h2 : m.l2.read32 A with
    | some v => simp [memlog, fetchIntoL1i]
    | none => simp [memlog, fetchIntoL1i, fetchIntoL2_l2, SACache.sa_read32_fetchLine_isSome]

/-- The record `readData32` appends. -/
theorem readData32_log (m : Corei7Memory) (A : Nat) :
    (m.readData32 A).1.log = m.log ++ [⟨EventKind.READ32, A,
      if (m.l1d.read32 A).isSome then 1 else if (m.l2.read32 A).isSome then 2 else 3⟩] := by
  unfold readData32
  cases h1 : m.l1d.read32 A with
  | some v => simp [memlog]
  | none =>
    cases h2 : m.l2.read32 A with
    | some v => simp [memlog, fetchIntoL1d]
    | none => simp [memlog, fetchIntoL1d, fetchIntoL2_log]

/-- The value `readData32` returns. -/
theorem readData32_value (m : Corei7Memory) (A : Nat) :
    (m.readData32 A).2 =
      (m.l1d.read32 A <|> m.l2.read32 A).getD (m.mainMemory.readData32 A) := by
  unfold readData32
  cases h1 : m.l1d.read32 A with
  | some v => simp
  | none =>
    cases h2 : m.l2.read32 A with
    | some v => simp
    | none => simp

/-- After `readData32` a read of the data cache hits exactly when it hit
before. -/
theorem readData32_l1d_isSome (m : Corei7Memory) (A B : Nat) :
    ((m.readData32 A).1.l1d.read32 B).isSome = (m.l1d.read32 B).isSome := by
  unfold readData32
  cases h1 : m.l1d.read32 A with
  | some v => simp [memlog]
  | none =>
    cases h2 : m.l2.read32 A with
    | some v => simp [memlog, fetchIntoL1d, SACache.sa_read32_fetchLine_isSome]
    | none => simp [memlog, fetchIntoL1d, fetchIntoL2_l1d, SACache.sa_read32_fetchLine_isSome]

/-- After `readData32` a read of the shared L2 hits exactly when it hit
before. -/
theorem readData32_l2_isSome (m : Corei7Memory) (A B : Nat) :
    ((m.readData32 A).1.l2.read32 B).isSome = (m.l2.read32 B).isSome := by
  unfold readData32
  cases h1 : m.l1d.read32 A with
  | some v => simp [memlog]
  | none =>
    cases h2 : m.l2.read32 A with
    | some v => simp [memlog, fetchIntoL1d]
    | none => simp [memlog, fetchIntoL1d, fetchIntoL2_l2, SACache.sa_read32_fetchLine_isSome]

/-- The log after `readData64`: untouched on a hit in `l1d`, one record longer
otherwise. -/
theorem readData64_log (m : Corei7Memory) (A : Nat) :
    (m.readData64 A).1.log =
      if (m.l1d.read64 A).isSome then m.log
      else m.log ++ [⟨EventKind.READ64, A, if (m.l2.read64 A).isSome then 2 else 3⟩] := by
  unfold readData64
  cases h1 : m.l1d.read64 A with
  | some v => simp
  | none =>
    cases h2 : m.l2.read64 A with
    | some v => simp [memlog, fetchIntoL1d]
    | none => simp [memlog, fetchIntoL1d, fetchIntoL2_log]

/-- After `readData64` a read of the data cache hits exactly when it hit
before. -/
theorem readData64_l1d_isSome (m : Corei7Memory) (A B : Nat) :
    ((m.readData64 A).1.l1d.read64 B).isSome = (m.l1d.read64 B).isSome := by
  unfold readData64
  cases h1 : m.l1d.read64 A with
  | some v => simp
  | none =>
    cases h2 : m.l2.read64 A with
    | some v => simp [memlog, fetchIntoL1d, SACache.sa_read64_fetchLine_isSome]
    | none => simp [memlog, fetchIntoL1d, fetchIntoL2_l1d, SACache.sa_read64_fetchLine_isSome]

/-- After `readData64` a read of the shared L2 hits exactly when it hit
before. -/
theorem readData64_l2_isSome (m : Corei7Memory) (A B : Nat) :
    ((m.readData64 A).1.l2.read64 B).isSome = (m.l2.read64 B).isSome := by
  unfold readData64
  cases h1 : m.l1d.read64 A with
  | some v => simp
  | none =>
    cases h2 : m.l2.read64 A with
    | some v => simp [memlog, fetchIntoL1d]
    | none => simp [memlog, fetchIntoL1d, fetchIntoL2_l2, SACache.sa_read64_fetchLine_isSome]

/-- The record `writeData32` appends. -/
theorem writeData32_log (m : Corei7Memory) (A v : Nat) :
    (m.writeData32 A v).log =
      m.log ++ [⟨EventKind.WRITE32, A, if (m.l2.write32 A v).2 then 2 else 3⟩] := by
  simp only [writeData32]
  by_cases h : (m.l2.write32 A v).2 = true <;> simp [memlog, h, fetchIntoL2_log]

/-- The record `writeData64` appends. -/
theorem writeData64_log (m : Corei7Memory) (A v : Nat) :
    (m.writeData64 A v).log =
      m.log ++ [⟨EventKind.WRITE64, A, if (m.l2.write64 A v).2 then 2 else 3⟩] := by
  simp only [writeData64]
  by_cases h : (m.l2.write64 A v).2 = true <;> simp [memlog, h, fetchIntoL2_log]

end Corei7Memory

/-! ## The claims -/

open Corei7Memory

/-- C1 (FIFO eviction determinism) does not hold of the code: `fetchLine` never
writes the directory, so a lookup answers after any fetches what it answered
before them.  For every content of the uninitialised storage of a new
256-byte cache with 64-byte lines, it is impossible that lines 0, 64, 128 and
192 are all found after their four fetches and line 0 is no longer found after
the fetch of line 256.  On zero-filled storage lines 64, 128 and 192 are not
found after the four fetches, and after the fifth fetch line 0 is still found
in slot 0, whose bytes are now those of line 256. -/
theorem fifo_eviction_not_observable :
    (∀ (raw : RawStorage) (src : Buffer), ∃ c,
      FACache.construct 256 64 raw = Construction.built c ∧
      ¬ ((∀ t ∈ [0, 64, 128, 192], (c.fetchAll [0, 64, 128, 192] src).findTag t ≠ none) ∧
          (c.fetchAll [0, 64, 128, 192, 256] src).findTag 0 = none)) ∧
    (∃ c, FACache.construct 256 64 zeroStorage = Construction.built c ∧
      c.associativity = 4 ∧
      (c.fetchAll [0, 64, 128, 192] lineStamp).findTag 64 = none ∧
      (c.fetchAll [0, 64, 128, 192] lineStamp).findTag 128 = none ∧
      (c.fetchAll [0, 64, 128, 192] lineStamp).findTag 192 = none ∧
      (c.fetchAll [0, 64, 128, 192, 256] lineStamp).findTag 0 = some 0 ∧
      (c.fetchAll [0, 64, 128, 192, 256] lineStamp).findTag 256 = none ∧
      (c.fetchAll [0, 64, 128, 192, 256] lineStamp).data 0 = 4) := by
  refine ⟨fun raw src => ⟨_, rfl, ?_⟩, ⟨_, rfl, ?_⟩⟩
  · rintro ⟨hall, hgone⟩
    have h0 := hall 0 (by simp)
    rw [FACache.findTag_fetchAll] at h0 hgone
    exact h0 hgone
  · decide

/-- C2 (fetchLine installs the line) does not hold of the code: for every
state, address and source buffer the directory after `fetchLine` is the
directory before it.  In a 256-byte cache with 64-byte lines whose directory
entries all read 1 (tag 0, dirty), `fetchLine(64, src)` picks slot 0, and
afterwards slot 0 still reads 1: the tag 64 is not found and the slot is still
dirty. -/
theorem fetchLine_leaves_directory :
    (∀ (c : FACache) (address : Nat) (src : Buffer),
      (c.fetchLine address src).1.directory = c.directory) ∧
    (∃ c, FACache.construct 256 64 onesStorage = Construction.built c ∧
      c.victim 64 = 0 ∧
      (c.splitAddress 64).1 = 64 ∧
      (c.fetchLine 64 lineStamp).1.directory 0 = 1 ∧
      (c.fetchLine 64 lineStamp).1.findTag 64 = none ∧
      (c.fetchLine 64 lineStamp).1.isDirty 0 = true) := by
  refine ⟨fun c address src => rfl, ⟨_, rfl, ?_⟩⟩
  decide

/-- C3 (line-fill property) does not hold of the code: a read that is repeated
at once is logged with the hit level of the first read, whatever that level
was, so a read that reached level 2 or 3 is followed by a read that reaches
level 2 or 3 again, never level 1.  This holds in every hierarchy state and at
every address for `readInstruction32` and `readData32`, and for `readData64`
whenever the first read was logged.  In the hierarchy built on zero-filled
storage the reads of address 64 reach level 3 and the following reads of
addresses 100 and 96, in the same line, reach level 3 as well. -/
theorem line_fill_leaves_hit_level :
    (∀ (m : Corei7Memory) (A : Nat),
      (∃ L, (m.readInstruction32 A).1.log = m.log ++ [⟨EventKind.READI, A, L⟩] ∧
        ((m.readInstruction32 A).1.readInstruction32 A).1.log =
          m.log ++ [⟨EventKind.READI, A, L⟩, ⟨EventKind.READI, A, L⟩]) ∧
      (∃ L, (m.readData32 A).1.log = m.log ++ [⟨EventKind.READ32, A, L⟩] ∧
        ((m.readData32 A).1.readData32 A).1.log =
          m.log ++ [⟨EventKind.READ32, A, L⟩, ⟨EventKind.READ32, A, L⟩]) ∧
      (((m.readData64 A).1.log = m.log ∧ ((m.readData64 A).1.readData64 A).1.log = m.log) ∨
        ∃ L, (L = 2 ∨ L = 3) ∧
          (m.readData64 A).1.log = m.log ++ [⟨EventKind.READ64, A, L⟩] ∧
          ((m.readData64 A).1.readData64 A).1.log =
            m.log ++ [⟨EventKind.READ64, A, L⟩, ⟨EventKind.READ64, A, L⟩])) ∧
    (∃ m, Corei7Memory.construct 4096 zeroHierarchy = Construction.built m ∧
      (m.readData32 64).1.log = [⟨EventKind.READ32, 64, 3⟩] ∧
      ((m.readData32 64).1.readData32 100).1.log =
        [⟨EventKind.READ32, 64, 3⟩, ⟨EventKind.READ32, 100, 3⟩] ∧
      ((m.readInstruction32 64).1.readInstruction32 100).1.log =
        [⟨EventKind.READI, 64, 3⟩, ⟨EventKind.READI, 100, 3⟩] ∧
      ((m.readData64 64).1.readData64 96).1.log =
        [⟨EventKind.READ64, 64, 3⟩, ⟨EventKind.READ64, 96, 3⟩]) := by
  refine ⟨fun m A => ⟨⟨_, readInstruction32_log m A, ?_⟩, ⟨_, readData32_log m A, ?_⟩, ?_⟩,
    ⟨_, rfl, ?_⟩⟩
  · rw [readInstruction32_log, readInstruction32_log, readInstruction32_l1i_isSome,
      readInstruction32_l2_isSome]
    simp
  · rw [readData32_log, readData32_log, readData32_l1d_isSome, readData32_l2_isSome]
    simp
  · have hfirst := readData64_log m A
    have hsecond := readData64_log (m.readData64 A).1 A
    rw [readData64_l1d_isSome, readData64_l2_isSome] at hsecond
    by_cases h1 : (m.l1d.read64 A).isSome
    · left
      rw [if_pos h1] at hfirst hsecond
      exact ⟨hfirst, hsecond.trans hfirst⟩
    · right
      rw [if_neg h1] at hfirst hsecond
      refine ⟨if (m.l2.read64 A).isSome then 2 else 3, ?_, hfirst, ?_⟩
      · split <;> simp
      · rw [hsecond, hfirst]; simp
  · decide

/-- C4 (controller write/read round trip) does not hold of the code: in the
hierarchy built on zero-filled storage the line of address 64 is in neither
the data cache nor the shared L2; `writeData32(64, 7)` is logged at level 3,
the write retried after the line fetch misses again, the shared L2 does not
hold the line when the call returns, and the `readData32(64)` that follows
returns 0.  The 64-bit operations behave alike. -/
theorem write_then_read_loses_value :
    ∃ m, Corei7Memory.construct 4096 zeroHierarchy = Construction.built m ∧
      m.l1d.read32 64 = none ∧
      m.l2.read32 64 = none ∧
      (m.writeData32 64 7).log = [⟨EventKind.WRITE32, 64, 3⟩] ∧
      (m.writeData32 64 7).l2.read32 64 = none ∧
      ((m.writeData32 64 7).readData32 64).2 = 0 ∧
      (m.writeData64 64 7).log = [⟨EventKind.WRITE64, 64, 3⟩] ∧
      (m.writeData64 64 7).l2.read64 64 = none ∧
      ((m.writeData64 64 7).readData64 64).2 = 0 := by
  refine ⟨_, rfl, ?_⟩
  decide

/-- C5 (write-back destination) does not hold of the code: the evicted line is
copied to `address + oldLine`.  In a hierarchy whose shared L2 holds the line
of tag 4096 in the slot the FIFO cursor points to, `writeData32(4096, 171)`
hits the L2 and makes that line dirty; the `readData32(512)` that follows
reaches level 3 and evicts it (first byte 171, old tag 4096).  Afterwards main
memory holds 0 at address 4096 and the evicted byte 171 at address
512 + 4096. -/
theorem write_back_lands_at_address_plus_tag :
    ∃ m, Corei7Memory.construct 16384 staleHierarchy = Construction.built m ∧
      (m.writeData32 4096 171).log = [⟨EventKind.WRITE32, 4096, 2⟩] ∧
      ((m.writeData32 4096 171).l2.fetchLine 512
          (m.writeData32 4096 171).mainMemory.getData).2.map (fun r => (r.1 0, r.2))
        = some (171, 4096) ∧
      ((m.writeData32 4096 171).readData32 512).1.log =
        [⟨EventKind.WRITE32, 4096, 2⟩, ⟨EventKind.READ32, 512, 3⟩] ∧
      ((m.writeData32 4096 171).readData32 512).1.mainMemory.data 4096 = 0 ∧
      ((m.writeData32 4096 171).readData32 512).1.mainMemory.data (512 + 4096) = 171 := by
  refine ⟨_, rfl, ?_⟩
  decide

/-- C6 (logging symmetry) does not hold of the code: `readData32` appends one
record at every call, while `readData64` appends one record only when the read
of the data cache misses and none when it hits.  In the hierarchy built on
zero-filled storage `readData32(0)` logs level 1 and `readData64(0)` logs
nothing. -/
theorem readData64_l1_hit_not_logged :
    (∀ (m : Corei7Memory) (A : Nat),
      (m.readData32 A).1.log.length = m.log.length + 1 ∧
      (m.readData64 A).1.log.length =
        m.log.length + (if (m.l1d.read64 A).isSome then 0 else 1)) ∧
    (∃ m, Corei7Memory.construct 4096 zeroHierarchy = Construction.built m ∧
      (m.readData32 0).1.log = [⟨EventKind.READ32, 0, 1⟩] ∧
      (m.readData64 0).1.log = []) := by
  refine ⟨fun m A => ⟨?_, ?_⟩, ⟨_, rfl, ?_⟩⟩
  · rw [readData32_log]; simp
  · rw [readData64_log]; split <;> simp
  · decide

/-- C7 (read hit-level resolution): in every hierarchy state and at every
address, `readInstruction32` (and likewise `readData32` with the data cache)
appends one record whose hit level is 1, 2 or 3: 1 exactly when the read of
the instruction cache hits, 2 exactly when it misses and the read of the
shared L2 hits, 3 exactly when both miss; the value returned is the one read
from the first of instruction cache and shared L2 that hits, and the one main
memory holds when neither does. -/
theorem read_hit_level_resolution (m : Corei7Memory) (A : Nat) :
    (∃ L, (m.readInstruction32 A).1.log = m.log ++ [⟨EventKind.READI, A, L⟩] ∧
      (L = 1 ∨ L = 2 ∨ L = 3) ∧
      (L = 1 ↔ (m.l1i.read32 A).isSome) ∧
      (L = 2 ↔ m.l1i.read32 A = none ∧ (m.l2.read32 A).isSome) ∧
      (L = 3 ↔ m.l1i.read32 A = none ∧ m.l2.read32 A = none) ∧
      (m.readInstruction32 A).2 =
        (m.l1i.read32 A <|> m.l2.read32 A).getD (m.mainMemory.readInstruction32 A)) ∧
    (∃ L, (m.readData32 A).1.log = m.log ++ [⟨EventKind.READ32, A, L⟩] ∧
      (L = 1 ∨ L = 2 ∨ L = 3) ∧
      (L = 1 ↔ (m.l1d.read32 A).isSome) ∧
      (L = 2 ↔ m.l1d.read32 A = none ∧ (m.l2.read32 A).isSome) ∧
      (L = 3 ↔ m.l1d.read32 A = none ∧ m.l2.read32 A = none) ∧
      (m.readData32 A).2 =
        (m.l1d.read32 A <|> m.l2.read32 A).getD (m.mainMemory.readData32 A)) := by
  refine ⟨⟨_, readInstruction32_log m A, ?_⟩, ⟨_, readData32_log m A, ?_⟩⟩
  · rw [readInstruction32_value]
    cases h1 : m.l1i.read32 A <;> cases h2 : m.l2.read32 A <;> simp
  · rw [readData32_value]
    cases h1 : m.l1d.read32 A <;> cases h2 : m.l2.read32 A <;> simp

/-- C8 (cold-miss property) does not hold of the code: the constructor leaves
the directories uninitialised and no value marks an empty slot, so a directory
entry that reads 0 is taken for the line at address 0.  In the hierarchy built
on zero-filled storage the first access to address 0 (or 60) is logged at
level 1 for the reads and at level 2 for the data writes. -/
theorem first_access_hits_without_fill :
    ∃ m, Corei7Memory.construct 4096 zeroHierarchy = Construction.built m ∧
      m.log = [] ∧
      (m.readInstruction32 0).1.log = [⟨EventKind.READI, 0, 1⟩] ∧
      (m.readData32 0).1.log = [⟨EventKind.READ32, 0, 1⟩] ∧
      (m.readData32 60).1.log = [⟨EventKind.READ32, 60, 1⟩] ∧
      (m.writeData32 0 5).log = [⟨EventKind.WRITE32, 0, 2⟩] ∧
      (m.writeData64 0 5).log = [⟨EventKind.WRITE64, 0, 2⟩] := by
  refine ⟨_, rfl, ?_⟩
  decide

/-- C9 (data-write hit level ignores L1): for every hierarchy state, every
replacement `d` of its data cache, every address and value, `writeData32` (and
likewise `writeData64`) appends the same record in the state and in the state
with the data cache replaced; its hit level is 2 when the first write to the
shared L2 hits and 3 when it misses, and so never 1. -/
theorem data_write_level_ignores_l1 (m : Corei7Memory) (d : SACache) (A v : Nat) :
    (∃ L, (L = 2 ∨ L = 3) ∧
      (L = 2 ↔ (m.l2.write32 A v).2 = true) ∧
      (L = 3 ↔ (m.l2.write32 A v).2 = false) ∧
      (m.writeData32 A v).log = m.log ++ [⟨EventKind.WRITE32, A, L⟩] ∧
      (Corei7Memory.writeData32 { m with l1d := d } A v).log =
        m.log ++ [⟨EventKind.WRITE32, A, L⟩]) ∧
    (∃ L, (L = 2 ∨ L = 3) ∧
      (L = 2 ↔ (m.l2.write64 A v).2 = true) ∧
      (L = 3 ↔ (m.l2.write64 A v).2 = false) ∧
      (m.writeData64 A v).log = m.log ++ [⟨EventKind.WRITE64, A, L⟩] ∧
      (Corei7Memory.writeData64 { m with l1d := d } A v).log =
        m.log ++ [⟨EventKind.WRITE64, A, L⟩]) := by
  refine ⟨⟨if (m.l2.write32 A v).2 then 2 else 3, ?_, ?_, ?_, writeData32_log m A v, ?_⟩,
    ⟨if (m.l2.write64 A v).2 then 2 else 3, ?_, ?_, ?_, writeData64_log m A v, ?_⟩⟩
  · split <;> simp
  · split <;> simp_all
  · split <;> simp_all
  · rw [writeData32_log]
  · split <;> simp
  · split <;> simp_all
  · split <;> simp_all
  · rw [writeData64_log]

/-- C10 (power-of-two guard) does not hold of the code for a zero line size or
a zero associativity: the constructors divide by them before the validity
check is reached, so the run ends in a division by zero and not in the
`throw`.  This is so for every size and whatever the other divisor is. -/
theorem constructor_divides_before_guard (size divisor : Nat) (raw : RawStorage)
    (raws : Nat → RawStorage) :
    FACache.construct size 0 raw = Construction.divisionByZero ∧
    SACache.construct size 0 divisor raws = Construction.divisionByZero ∧
    SACache.construct size divisor 0 raws = Construction.divisionByZero ∧
    FACache.construct 256 0 raw ≠ Construction.thrown ∧
    SACache.construct 256 0 4 raws ≠ Construction.thrown ∧
    SACache.construct 256 64 0 raws ≠ Construction.thrown := by
  refine ⟨rfl, ?_, ?_, ?_, ?_, ?_⟩
  · simp [SACache.construct]
  · simp [SACache.construct]
  · simp [FACache.construct]
  · simp [SACache.construct]
  · simp [SACache.construct]

/-! ## Address decomposition -/

/-- Masking an address with the complement of a low mask clears the low bits. -/
theorem and_not64_low_mask (A k : Nat) (hA : A < 2 ^ 64) (hk : k ≤ 64) :
    A &&& not64 (2 ^ k - 1) = A / 2 ^ k * 2 ^ k := by
  have hlt : 2 ^ k - 1 < 2 ^ 64 := by
    have : 2 ^ k ≤ 2 ^ 64 := Nat.pow_le_pow_right (by norm_num) hk
    have : 0 < 2 ^ k := Nat.two_pow_pos k
    omega
  apply Nat.eq_of_testBit_eq
  intro i
  rw [Nat.mul_comm, Nat.testBit_mul_pow_two, Nat.testBit_and, not64, Nat.mod_eq_of_lt hlt,
    Nat.testBit_xor, Nat.testBit_two_pow_sub_one, Nat.testBit_two_pow_sub_one,
    ← Nat.shiftRight_eq_div_pow, Nat.testBit_shiftRight]
  by_cases h1 : i < k
  · have : ¬ k ≤ i := by omega
    have h2 : i < 64 := by omega
    simp [h1, h2, this]
  · have h3 : k ≤ i := by omega
    by_cases h2 : i < 64
    · simp [h1, h2, h3, Nat.add_sub_of_le h3]
    · have : A.testBit i = false :=
        Nat.testBit_lt_two_pow (lt_of_lt_of_le hA (Nat.pow_le_pow_right (by norm_num) (by omega)))
      simp [h1, h2, h3, this, Nat.add_sub_of_le h3]

/-- The offset mask and the set mask together are the low mask of both fields. -/
theorem or_shiftLeft_mask (o s : Nat) :
    (2 ^ o - 1) ||| ((2 ^ s - 1) <<< o) = 2 ^ (o + s) - 1 := by
  apply Nat.eq_of_testBit_eq
  intro i
  rw [Nat.testBit_or, Nat.testBit_shiftLeft, Nat.testBit_two_pow_sub_one,
    Nat.testBit_two_pow_sub_one, Nat.testBit_two_pow_sub_one]
  by_cases h1 : i < o
  · have : i < o + s := by omega
    simp [h1, this]
  · have h2 : o ≤ i := by omega
    by_cases h3 : i < o + s
    · have : i - o < s := by omega
      simp [h1, h2, h3, this]
    · have : ¬ i - o < s := by omega
      simp [h1, h2, h3, this]

/-- Selecting the set field and shifting it down is shifting down and selecting. -/
theorem and_shiftLeft_shiftRight (A m o : Nat) :
    (A &&& (m <<< o)) >>> o = (A >>> o) &&& m := by
  apply Nat.eq_of_testBit_eq
  intro i
  simp [Nat.testBit_shiftRight, Nat.testBit_and, Nat.testBit_shiftLeft]

/-- On a power of two `ffs` returns the exponent plus one. -/
theorem ffs_two_pow : ∀ o, o < 32 → ffs (2 ^ o) = o + 1 := by decide

/-- What a successful run of `FACache::FACache` has checked and what it has built. -/
theorem FACache.construct_built {size lineSize : Nat} {raw : RawStorage} {c : FACache}
    (h : FACache.construct size lineSize raw = Construction.built c) :
    lineSize ≠ 0 ∧ size / lineSize * lineSize % 2 ^ 32 = size ∧ potencia2 size = true ∧
      potencia2 lineSize = true ∧ potencia2 (size / lineSize) = true ∧
      c = { size := size, lineSize := lineSize, associativity := size / lineSize, numSets := 1
            offsetMask := lineSize - 1, writeIndex := raw.writeIndex
            directory := raw.directory, data := raw.data } := by
  unfold FACache.construct at h
  by_cases hl : lineSize = 0
  · simp [hl] at h
  · simp only [hl, if_false] at h
    by_cases hv : (decide (size / lineSize * lineSize % 2 ^ 32 = size) && potencia2 size
        && potencia2 lineSize && potencia2 (size / lineSize)) = true
    · simp only [hv] at h
      simp only [Bool.and_eq_true, decide_eq_true_eq] at hv
      obtain ⟨⟨⟨h1, h2⟩, h3⟩, h4⟩ := hv
      refine ⟨hl, h1, h2, h3, h4, ?_⟩
      simpa using h.symm
    · rw [Bool.not_eq_true] at hv
      simp only [hv] at h
      simp at h

/-- A run of `FACache::FACache` on arguments that pass the check builds the object. -/
theorem FACache.construct_of_valid (size lineSize : Nat) (raw : RawStorage)
    (hl : lineSize ≠ 0) (h1 : size / lineSize * lineSize % 2 ^ 32 = size)
    (h2 : potencia2 size = true) (h3 : potencia2 lineSize = true)
    (h4 : potencia2 (size / lineSize) = true) :
    FACache.construct size lineSize raw = Construction.built
      { size := size, lineSize := lineSize, associativity := size / lineSize, numSets := 1
        offsetMask := lineSize - 1, writeIndex := raw.writeIndex
        directory := raw.directory, data := raw.data } := by
  unfold FACache.construct
  simp only [hl, if_false]
  have hv : (decide (size / lineSize * lineSize % 2 ^ 32 = size) && potencia2 size
        && potencia2 lineSize && potencia2 (size / lineSize)) = true := by
    rw [decide_eq_true h1, h2, h3, h4]; rfl
  simp only [hv]
  rfl

/-- What a successful run of `SACache::SACache` has checked and the attributes
it has set. -/
theorem SACache.sa_construct_built {size lineSize associativity : Nat} {raw : Nat → RawStorage}
    {c : SACache}
    (h : SACache.construct size lineSize associativity raw = Construction.built c) :
    lineSize ≠ 0 ∧ associativity ≠ 0 ∧
      size / associativity / lineSize * associativity * lineSize % 2 ^ 32 = size ∧
      potencia2 size = true ∧ potencia2 (size / associativity / lineSize) = true ∧
      potencia2 lineSize = true ∧ potencia2 associativity = true ∧
      c.size = size ∧ c.lineSize = lineSize ∧ c.associativity = associativity ∧
      c.numSets = size / associativity / lineSize ∧ c.offsetMask = lineSize - 1 ∧
      c.lookupShift = ffs lineSize - 1 ∧
      c.lookupMask = ((size / associativity / lineSize - 1) <<< (ffs lineSize - 1)) % 2 ^ 32 ∧
      SACache.buildSets (size / (size / associativity / lineSize)) lineSize raw
        (size / associativity / lineSize) = Construction.built c.sets := by
  unfold SACache.construct at h
  by_cases hz : associativity = 0 ∨ lineSize = 0
  · simp [hz] at h
  · simp only [hz, if_false] at h
    by_cases hv : (decide (size / associativity / lineSize * associativity * lineSize % 2 ^ 32
        = size) && potencia2 size && potencia2 (size / associativity / lineSize)
        && potencia2 lineSize && potencia2 associativity) = true
    · simp only [hv] at h
      simp only [Bool.and_eq_true, decide_eq_true_eq] at hv
      obtain ⟨⟨⟨⟨h1, h2⟩, h3⟩, h4⟩, h5⟩ := hv
      have hz2 : associativity ≠ 0 ∧ lineSize ≠ 0 := by
        constructor
        · intro h0; exact hz (Or.inl h0)
        · intro h0; exact hz (Or.inr h0)
      cases hb : SACache.buildSets (size / (size / associativity / lineSize)) lineSize raw
          (size / associativity / lineSize) with
      | built sets =>
        simp only [hb] at h
        have hc : c = _ := (Construction.built.inj h).symm
        subst hc
        exact ⟨hz2.2, hz2.1, h1, h2, h3, h4, h5, rfl, rfl, rfl, rfl, rfl, rfl, rfl, rfl⟩
      | thrown => simp [hb] at h
      | divisionByZero => simp [hb] at h
    · rw [Bool.not_eq_true] at hv
      simp only [hv] at h
      simp at h

/-- The three fields of an address put together again give the address. -/
theorem fields_recompose (A o s : Nat) :
    A / 2 ^ (o + s) * 2 ^ (o + s) + A / 2 ^ o % 2 ^ s * 2 ^ o + A % 2 ^ o = A := by
  have h1 := Nat.div_add_mod A (2 ^ o)
  have h2 := Nat.div_add_mod (A / 2 ^ o) (2 ^ s)
  have h3 : A / 2 ^ (o + s) = A / 2 ^ o / 2 ^ s := by
    rw [Nat.div_div_eq_div_mul, Nat.pow_add]
  rw [h3, Nat.pow_add]
  generalize A / 2 ^ o = q at *
  generalize q / 2 ^ s = r at *
  generalize q % 2 ^ s = t at *
  generalize A % 2 ^ o = u at *
  generalize 2 ^ o = x at *
  generalize 2 ^ s = y at *
  subst h1
  subst h2
  ring

/-- The masks `SACache::SACache` computes for a line size `2 ^ o` and `2 ^ s` sets. -/
theorem SACache.masks_of_construct {size lineSize associativity : Nat} {raw : Nat → RawStorage}
    {c : SACache} {o s : Nat}
    (h : SACache.construct size lineSize associativity raw = Construction.built c)
    (ho : lineSize = 2 ^ o) (hs : c.numSets = 2 ^ s) :
    o + s < 32 ∧ c.offsetMask = 2 ^ o - 1 ∧ c.lookupShift = o ∧
      c.lookupMask = (2 ^ s - 1) <<< o := by
  obtain ⟨hl, ha, h1, -, -, -, -, -, -, -, hn, hm, hsh, hlm, -⟩ := SACache.sa_construct_built h
  rw [hs] at hn
  rw [← hn] at h1 hlm
  have hsize : size < 2 ^ 32 := by rw [← h1]; exact Nat.mod_lt _ (by norm_num)
  have hle : 2 ^ s * associativity * lineSize ≤ size := by
    rw [hn, Nat.div_div_eq_div_mul, Nat.mul_assoc]
    exact Nat.div_mul_le_self size _
  have hpow : 2 ^ (o + s) < 2 ^ 32 := by
    have h1a : 1 ≤ associativity := Nat.pos_of_ne_zero ha
    have : 2 ^ s * 1 * lineSize ≤ 2 ^ s * associativity * lineSize :=
      Nat.mul_le_mul_right _ (Nat.mul_le_mul_left _ h1a)
    rw [Nat.pow_add, ← ho, Nat.mul_comm]
    rw [Nat.mul_one] at this
    omega
  have hos : o + s < 32 := (Nat.pow_lt_pow_iff_right (by norm_num)).1 hpow
  have hffs : ffs lineSize - 1 = o := by rw [ho, ffs_two_pow o (by omega)]; rfl
  refine ⟨hos, by rw [hm, ho], by rw [hsh, hffs], ?_⟩
  rw [hlm, hffs]
  apply Nat.mod_eq_of_lt
  rw [Nat.shiftLeft_eq]
  have : (2 ^ s - 1) * 2 ^ o ≤ 2 ^ s * 2 ^ o := Nat.mul_le_mul_right _ (Nat.sub_le _ _)
  rw [Nat.pow_add, Nat.mul_comm] at hpow
  omega


/-- C11 (address decomposition): for every `SACache` the constructor has built
with a line size `2 ^ o` and `2 ^ s` sets, and every 64-bit address,
`SACache::splitAddress` yields the tag `address & ~((lineSize-1) | ((numSets-1) << o))`,
the set index `(address >> o) & (numSets-1)` and the offset
`address & (lineSize-1)`; these are the address with its low `o + s` bits
cleared, the next `s` bits and the low `o` bits, so that together they give
the address back and no bit is lost.  For every `FACache` the constructor has
built, `FACache::splitAddress` yields the tag `address & ~(lineSize-1)` and
the offset `address & (lineSize-1)`, which together give the address back. -/
theorem splitAddress_fields {size lineSize associativity : Nat} {raw : Nat → RawStorage}
    {c : SACache} {fsize fline : Nat} {fraw : RawStorage} {f : FACache} (o s p A : Nat)
    (hc : SACache.construct size lineSize associativity raw = Construction.built c)
    (ho : lineSize = 2 ^ o) (hs : c.numSets = 2 ^ s)
    (hf : FACache.construct fsize fline fraw = Construction.built f) (hp : fline = 2 ^ p)
    (hA : A < 2 ^ 64) :
    c.splitAddress A =
        (A &&& not64 ((lineSize - 1) ||| ((c.numSets - 1) <<< o)),
         (A >>> o) &&& (c.numSets - 1),
         A &&& (lineSize - 1)) ∧
      (c.splitAddress A).2.2 = A % lineSize ∧
      (c.splitAddress A).2.1 = A / lineSize % c.numSets ∧
      (c.splitAddress A).1 = A / (lineSize * c.numSets) * (lineSize * c.numSets) ∧
      (c.splitAddress A).1 + (c.splitAddress A).2.1 * lineSize + (c.splitAddress A).2.2 = A ∧
      f.splitAddress A = (A &&& not64 (fline - 1), A &&& (fline - 1)) ∧
      (f.splitAddress A).2 = A % fline ∧
      (f.splitAddress A).1 = A / fline * fline ∧
      (f.splitAddress A).1 + (f.splitAddress A).2 = A := by
  obtain ⟨hos, hm, hsh, hlm⟩ := SACache.masks_of_construct hc ho hs
  obtain ⟨-, hf1, -, -, -, hfc⟩ := FACache.construct_built hf
  have hfm : f.offsetMask = 2 ^ p - 1 := by rw [hfc, hp]
  have hfsize : fsize < 2 ^ 32 := by rw [← hf1]; exact Nat.mod_lt _ (by norm_num)
  have hpl : p < 32 := by
    have hle : fsize / fline * fline ≤ fsize := Nat.div_mul_le_self _ _
    have hpos : 0 < fsize / fline := by
      rcases Nat.eq_zero_or_pos (fsize / fline) with h0 | h0
      · have hq := (FACache.construct_built hf).2.2.2.2.1
        rw [h0] at hq
        exact absurd hq (by decide)
      · exact h0
    have : fline ≤ fsize / fline * fline := Nat.le_mul_of_pos_left _ hpos
    have : 2 ^ p < 2 ^ 32 := by rw [← hp]; omega
    exact (Nat.pow_lt_pow_iff_right (by norm_num)).1 this
  have e1 : (c.splitAddress A).2.2 = A % 2 ^ o := by
    show A &&& c.offsetMask = _
    rw [hm, Nat.and_pow_two_sub_one_eq_mod]
  have e2 : (c.splitAddress A).2.1 = A / 2 ^ o % 2 ^ s := by
    show (A &&& c.lookupMask) >>> c.lookupShift = _
    rw [hlm, hsh, and_shiftLeft_shiftRight, Nat.and_pow_two_sub_one_eq_mod,
      Nat.shiftRight_eq_div_pow]
  have e3 : (c.splitAddress A).1 = A / 2 ^ (o + s) * 2 ^ (o + s) := by
    show A &&& not64 (c.offsetMask ||| c.lookupMask) = _
    rw [hm, hlm, or_shiftLeft_mask, and_not64_low_mask A (o + s) hA (by omega)]
  have e4 : (f.splitAddress A).2 = A % 2 ^ p := by
    show A &&& f.offsetMask = _
    rw [hfm, Nat.and_pow_two_sub_one_eq_mod]
  have e5 : (f.splitAddress A).1 = A / 2 ^ p * 2 ^ p := by
    show A &&& not64 f.offsetMask = _
    rw [hfm, and_not64_low_mask A p hA (by omega)]
  refine ⟨?_, ?_, ?_, ?_, ?_, ?_, ?_, ?_, ?_⟩
  · show (A &&& not64 (c.offsetMask ||| c.lookupMask), (A &&& c.lookupMask) >>> c.lookupShift,
      A &&& c.offsetMask) = _
    rw [hm, hlm, hsh, and_shiftLeft_shiftRight, ho, hs]
  · rw [e1, ho]
  · rw [e2, ho, hs]
  · rw [e3, ho, hs, Nat.pow_add]
  · rw [e1, e2, e3, ho]; exact fields_recompose A o s
  · show (A &&& not64 f.offsetMask, A &&& f.offsetMask) = _
    rw [hfm, hp]
  · rw [e4, hp]
  · rw [e5, hp]
  · rw [e4, e5]
    have := Nat.div_add_mod A (2 ^ p)
    rw [Nat.mul_comm] at this
    exact this

/-- C11, at the shared L2 of the hierarchy (8 KiB, 64-byte lines, 16 ways) and a
256-byte fully associative cache, for an address with its high 32 bits set. -/
theorem splitAddress_fields_witness :
    ∃ c f, SACache.construct 8192 64 16 (fun _ => zeroStorage) = Construction.built c ∧
      FACache.construct 256 64 zeroStorage = Construction.built f ∧
      c.splitAddress 18446744069414589781 = (18446744069414589440, 5, 21) ∧
      f.splitAddress 18446744069414589781 = (18446744069414589760, 21) := by
  have h := splitAddress_fields 6 3 6 18446744069414589781
    (show SACache.construct 8192 64 16 (fun _ => zeroStorage) = Construction.built _ from rfl)
    rfl rfl
    (show FACache.construct 256 64 zeroStorage = Construction.built _ from rfl)
    rfl (by decide)
  exact ⟨_, _, rfl, rfl, h.1.trans (by decide), h.2.2.2.2.2.1.trans (by decide)⟩

/-! ## Bytes, the dirty bit and the lookup -/

/-- A 32-bit value stored at an index is the value loaded from it. -/
theorem load32_store32 (b : Buffer) (p v : Nat) (hv : v < 2 ^ 32) :
    load32 (store32 b p v) p = v := by
  have h0 : store32 b p v p = v / 256 ^ 0 % 256 := by simp [store32]
  have h1 : store32 b p v (p + 1) = v / 256 ^ 1 % 256 := by simp [store32]
  have h2 : store32 b p v (p + 2) = v / 256 ^ 2 % 256 := by simp [store32]
  have h3 : store32 b p v (p + 3) = v / 256 ^ 3 % 256 := by simp [store32]
  unfold load32
  rw [h0, h1, h2, h3]
  norm_num at hv ⊢
  omega

/-- A 64-bit value stored at an index is the value loaded from it. -/
theorem load64_store64 (b : Buffer) (p v : Nat) (hv : v < 2 ^ 64) :
    load64 (store64 b p v) p = v := by
  have h0 : store64 b p v p = v / 256 ^ 0 % 256 := by simp [store64]
  have h1 : store64 b p v (p + 1) = v / 256 ^ 1 % 256 := by simp [store64]
  have h2 : store64 b p v (p + 2) = v / 256 ^ 2 % 256 := by simp [store64]
  have h3 : store64 b p v (p + 3) = v / 256 ^ 3 % 256 := by simp [store64]
  have h4 : store64 b p v (p + 4) = v / 256 ^ 4 % 256 := by simp [store64]
  have h5 : store64 b p v (p + 4 + 1) = v / 256 ^ 5 % 256 := by
    simp [store64, Nat.add_assoc]
  have h6 : store64 b p v (p + 4 + 2) = v / 256 ^ 6 % 256 := by
    simp [store64, Nat.add_assoc]
  have h7 : store64 b p v (p + 4 + 3) = v / 256 ^ 7 % 256 := by
    simp [store64, Nat.add_assoc]
  unfold load64 load32
  rw [h0, h1, h2, h3, h4, h5, h6, h7]
  norm_num at hv ⊢
  omega

/-! ## The dirty bit and the lookup -/

/-- Setting the lowest bit of a directory entry leaves the compared tag alone. -/
theorem or_one_and_clearDirty (w : Nat) : (w ||| 1) &&& clearDirty = w &&& clearDirty := by
  apply Nat.eq_of_testBit_eq
  intro i
  rw [Nat.testBit_and, Nat.testBit_and, Nat.testBit_or]
  cases i with
  | zero =>
    have : clearDirty.testBit 0 = false := by decide
    simp [this]
  | succ j =>
    have : Nat.testBit 1 (j + 1) = false := by
      rw [Nat.testBit_succ]; simp
    simp [this]

/-- Clearing the lowest bit of a directory entry leaves the compared tag alone. -/
theorem and_clearDirty_and_clearDirty (w : Nat) :
    (w &&& clearDirty) &&& clearDirty = w &&& clearDirty := by
  rw [Nat.and_assoc, Nat.and_self]

/-- An entry whose lowest bit has been set is dirty. -/
theorem or_one_and_one (w : Nat) : (w ||| 1) &&& 1 = 1 := by
  rw [Nat.and_one_is_mod]
  exact Nat.or_mod_two_eq_one.2 (Or.inr rfl)

/-- The loop of `findTag` sees the directory entries only through their tags. -/
theorem FACache.findTagLoop_congr (d e : Nat → Nat) (t : Nat)
    (h : ∀ k, d k &&& clearDirty = e k &&& clearDirty) :
    ∀ n i, FACache.findTagLoop d t i n = FACache.findTagLoop e t i n := by
  intro n
  induction n with
  | zero => intro i; rfl
  | succ n ih =>
    intro i
    simp only [FACache.findTagLoop, h i, ih (i + 1)]

/-- A lookup gives the same answer after `setDirty` as before it. -/
theorem FACache.findTag_setDirty (c : FACache) (idx t : Nat) :
    (c.setDirty idx).findTag t = c.findTag t := by
  unfold FACache.findTag FACache.setDirty
  apply FACache.findTagLoop_congr
  intro k
  show (if k = idx then c.directory k ||| 1 else c.directory k) &&& clearDirty = _
  split
  · exact or_one_and_clearDirty _
  · rfl

/-! ## More claims -/

/-- C12 (eviction result): for every cache state, address and source buffer,
`fetchLine` returns a removed line exactly when the victim slot is dirty
before the call; the bytes returned are the `lineSize` bytes the victim slot
held before it was overwritten, and the value reported in `oldLine` is the
directory entry of the victim with the dirty bit cleared; when the victim is
not dirty nothing is returned. -/
theorem fetchLine_eviction_result (c : FACache) (address : Nat) (src : Buffer) :
    (c.fetchLine address src).2.isSome = c.isDirty (c.victim address) ∧
    (∀ line oldLine, (c.fetchLine address src).2 = some (line, oldLine) →
      oldLine = c.directory (c.victim address) &&& clearDirty ∧
      ∀ k, k < c.lineSize → line k = c.data (c.victim address * c.lineSize + k)) := by
  have hres : (c.fetchLine address src).2 =
      if c.isDirty (c.victim address) then
        some (memcpy (fun _ => 0) 0 c.data (c.victim address * c.lineSize) c.lineSize,
          c.directory (c.victim address) &&& clearDirty)
      else none := rfl
  rw [hres]
  by_cases hd : c.isDirty (c.victim address) = true
  · rw [if_pos hd, hd]
    refine ⟨rfl, ?_⟩
    intro line oldLine h
    simp only [Option.some.injEq, Prod.mk.injEq] at h
    obtain ⟨h1, h2⟩ := h
    refine ⟨h2.symm, fun k hk => ?_⟩
    rw [← h1]
    simp [memcpy, hk]
  · rw [if_neg hd]
    rw [Bool.not_eq_true] at hd
    rw [hd]
    refine ⟨rfl, ?_⟩
    intro line oldLine h
    cases h

/-- C12, the scenario of the claim on the cache built on zero-filled storage
(where slot 0 reads tag 0 and the cursor is 0): line 0 fetched and written,
lines 64, 128 and 192 fetched; fetching line 256 then returns the written
bytes with old-line tag 0. -/
theorem fetchLine_eviction_result_witness :
    FACache.construct 256 64 zeroStorage = Construction.built zeroCache ∧
    evictionScenario.victim 256 = 0 ∧
    evictionScenario.isDirty 0 = true ∧
    ∃ line, (evictionScenario.fetchLine 256 byteRamp).2 = some (line, 0) ∧
      load32 line 0 = 3735928559 ∧ line 4 = 4 ∧ line 63 = 63 ∧
      ∀ k, k < 64 → line k = evictionScenario.data (0 * 64 + k) := by
  refine ⟨rfl, by decide, by decide, _, rfl, by decide, by decide, by decide, ?_⟩
  exact ((fetchLine_eviction_result evictionScenario 256 byteRamp).2 _ 0 rfl).2

/-- C13 (FIFO cursor advance) does not hold of the code: `fetchLine` advances
`writeIndex` to `(writeIndex + 1) % associativity` at every call, also when
the tag of the line was found and its own slot was reused.  In the cache built
on zero-filled storage line 0 is found in slot 0, `fetchLine(0, src)` reuses
slot 0, and the cursor goes from 0 to 1. -/
theorem fetchLine_always_advances_cursor :
    (∀ (c : FACache) (address : Nat) (src : Buffer),
      (c.fetchLine address src).1.writeIndex = (c.writeIndex + 1) % c.associativity) ∧
    (FACache.construct 256 64 zeroStorage = Construction.built zeroCache ∧
      zeroCache.findTag (zeroCache.splitAddress 0).1 = some 0 ∧
      zeroCache.victim 0 = 0 ∧
      zeroCache.writeIndex = 0 ∧
      (zeroCache.fetchLine 0 byteRamp).1.writeIndex = 1) := by
  refine ⟨fun c address src => rfl, rfl, ?_⟩
  decide

/-- C14 (cache-level write/read round trip on a resident line): for every
cache state and every address whose line is found in slot `i` and whose access
lies within the line, `write32` of a 32-bit value returns `true`, leaves slot
`i` dirty, and the `read32` of the same address that follows hits and returns
the value; likewise `write64` and `read64` with a 64-bit value. -/
theorem write_read_round_trip (c : FACache) (A i v w : Nat)
    (hres : c.findTag (c.splitAddress A).1 = some i)
    (hv : v < 2 ^ 32) (hw : w < 2 ^ 64) :
    ((c.splitAddress A).2 + 4 ≤ c.lineSize →
      (c.write32 A v).2 = true ∧ (c.write32 A v).1.isDirty i = true ∧
        (c.write32 A v).1.read32 A = some v) ∧
    ((c.splitAddress A).2 + 8 ≤ c.lineSize →
      (c.write64 A w).2 = true ∧ (c.write64 A w).1.isDirty i = true ∧
        (c.write64 A w).1.read64 A = some w) := by
  have e32 : c.write32 A v = (FACache.setDirty
      { c with data := store32 c.data (i * c.lineSize + (c.splitAddress A).2) v } i, true) := by
    simp only [FACache.write32, hres]
  have e64 : c.write64 A w = (FACache.setDirty
      { c with data := store64 c.data (i * c.lineSize + (c.splitAddress A).2) w } i, true) := by
    simp only [FACache.write64, hres]
  have hd : ∀ d : FACache, (d.setDirty i).isDirty i = true := by
    intro d
    simp [FACache.isDirty, FACache.setDirty, or_one_and_one]
  refine ⟨fun _ => ⟨?_, ?_, ?_⟩, fun _ => ⟨?_, ?_, ?_⟩⟩
  · rw [e32]
  · rw [e32]; exact hd _
  · rw [e32]
    simp only [FACache.read32]
    have hf : (FACache.setDirty
        { c with data := store32 c.data (i * c.lineSize + (c.splitAddress A).2) v } i).findTag
        (c.splitAddress A).1 = some i := by
      rw [FACache.findTag_setDirty]; exact hres
    show (match (FACache.setDirty _ i).findTag (c.splitAddress A).1 with
      | none => none
      | some j => some (load32 (store32 c.data (i * c.lineSize + (c.splitAddress A).2) v)
          (j * c.lineSize + (c.splitAddress A).2))) = some v
    rw [hf]
    simp only
    rw [load32_store32 _ _ _ hv]
  · rw [e64]
  · rw [e64]; exact hd _
  · rw [e64]
    simp only [FACache.read64]
    have hf : (FACache.setDirty
        { c with data := store64 c.data (i * c.lineSize + (c.splitAddress A).2) w } i).findTag
        (c.splitAddress A).1 = some i := by
      rw [FACache.findTag_setDirty]; exact hres
    show (match (FACache.setDirty _ i).findTag (c.splitAddress A).1 with
      | none => none
      | some j => some (load64 (store64 c.data (i * c.lineSize + (c.splitAddress A).2) w)
          (j * c.lineSize + (c.splitAddress A).2))) = some w
    rw [hf]
    simp only
    rw [load64_store64 _ _ _ hw]

/-- C14, in the cache built on zero-filled storage, at address 8 of the line
found in slot 0. -/
theorem write_read_round_trip_witness :
    zeroCache.findTag (zeroCache.splitAddress 8).1 = some 0 ∧
    ((zeroCache.write32 8 3735928559).2 = true ∧
      (zeroCache.write32 8 3735928559).1.isDirty 0 = true ∧
      (zeroCache.write32 8 3735928559).1.read32 8 = some 3735928559) ∧
    ((zeroCache.write64 8 81985529216486895).2 = true ∧
      (zeroCache.write64 8 81985529216486895).1.isDirty 0 = true ∧
      (zeroCache.write64 8 81985529216486895).1.read64 8 = some 81985529216486895) :=
  ⟨by decide,
    (write_read_round_trip zeroCache 8 0 3735928559 81985529216486895 (by decide) (by decide)
      (by decide)).1 (by decide),
    (write_read_round_trip zeroCache 8 0 3735928559 81985529216486895 (by decide) (by decide)
      (by decide)).2 (by decide)⟩

/-- C15 (miss atomicity): for every `FACache` state and every `SACache` state,
every address whose line is not found in the directory (of the selected set),
and every value, `read32` and `read64` return the miss indicator and `write32`
and `write64` return `false` together with the state they were given: every
directory entry, every byte and the FIFO cursor are as before.  (The reads
have no access to the state other than reading it.) -/
theorem miss_leaves_cache_unchanged (c : FACache) (s : SACache) (A v : Nat)
    (hc : c.findTag (c.splitAddress A).1 = none)
    (hs : (s.sets (s.lookup A)).findTag ((s.sets (s.lookup A)).splitAddress A).1 = none) :
    (c.read32 A = none ∧ c.read64 A = none ∧
      c.write32 A v = (c, false) ∧ c.write64 A v = (c, false)) ∧
    (s.read32 A = none ∧ s.read64 A = none ∧
      s.write32 A v = (s, false) ∧ s.write64 A v = (s, false)) := by
  have hfa : ∀ d : FACache, d.findTag (d.splitAddress A).1 = none →
      d.read32 A = none ∧ d.read64 A = none ∧
        d.write32 A v = (d, false) ∧ d.write64 A v = (d, false) := by
    intro d hd
    refine ⟨?_, ?_, ?_, ?_⟩
    · simp only [FACache.read32, hd]
    · simp only [FACache.read64, hd]
    · simp only [FACache.write32, hd]
    · simp only [FACache.write64, hd]
  have hset : s.withSet (s.lookup A) (s.sets (s.lookup A)) = s := by
    unfold SACache.withSet
    have : (fun j => if j = s.lookup A then s.sets (s.lookup A) else s.sets j) = s.sets := by
      funext j
      split
      · rename_i h; rw [h]
      · rfl
    rw [this]
  obtain ⟨s1, s2, s3, s4⟩ := hfa _ hs
  refine ⟨hfa c hc, s1, s2, ?_, ?_⟩
  · unfold SACache.write32
    simp only [s3, hset]
  · unfold SACache.write64
    simp only [s4, hset]

/-- C15, at address 64 in the cache built on zero-filled storage and in a
data cache of 2 KiB built on zero-filled storage. -/
theorem miss_leaves_cache_unchanged_witness :
    ∃ s, SACache.construct 2048 64 4 (fun _ => zeroStorage) = Construction.built s ∧
      zeroCache.findTag (zeroCache.splitAddress 64).1 = none ∧
      (s.sets (s.lookup 64)).findTag ((s.sets (s.lookup 64)).splitAddress 64).1 = none ∧
      ((zeroCache.read32 64 = none ∧ zeroCache.read64 64 = none ∧
        zeroCache.write32 64 7 = (zeroCache, false) ∧
        zeroCache.write64 64 7 = (zeroCache, false)) ∧
      (s.read32 64 = none ∧ s.read64 64 = none ∧
        s.write32 64 7 = (s, false) ∧ s.write64 64 7 = (s, false))) :=
  ⟨_, rfl, by decide, by decide,
    miss_leaves_cache_unchanged zeroCache _ 64 7 (by decide) (by decide)⟩

/-- A byte of another slot lies outside the slot that is overwritten. -/
theorem slot_disjoint (j v L k : Nat) (hj : j ≠ v) (hk : k < L) :
    ¬ (v * L ≤ j * L + k ∧ j * L + k < v * L + L) := by
  rintro ⟨h1, h2⟩
  rcases Nat.lt_or_gt_of_ne hj with h | h
  · have : (j + 1) * L ≤ v * L := Nat.mul_le_mul_right L h
    rw [Nat.add_mul, Nat.one_mul] at this
    omega
  · have : (v + 1) * L ≤ j * L := Nat.mul_le_mul_right L h
    rw [Nat.add_mul, Nat.one_mul] at this
    omega

/-- C16 (fetchLine copies exactly one line): for every cache state whose
offset mask is `lineSize - 1` (as the constructor sets it), every address and
source buffer, after `fetchLine` the `lineSize` bytes of the victim slot are
the bytes of the source from `address & ~(lineSize-1)` on, and the bytes of
every other slot are as before.  In a set-associative cache the call does this
in the set the address selects and leaves every other set as it was. -/
theorem fetchLine_copies_one_line (c : FACache) (s : SACache) (address : Nat) (src : Buffer)
    (hmask : c.offsetMask = c.lineSize - 1) :
    (∀ k, k < c.lineSize →
      (c.fetchLine address src).1.data (c.victim address * c.lineSize + k) =
        src ((address &&& not64 (c.lineSize - 1)) + k)) ∧
    (∀ j k, j ≠ c.victim address → k < c.lineSize →
      (c.fetchLine address src).1.data (j * c.lineSize + k) = c.data (j * c.lineSize + k)) ∧
    (s.fetchLine address src).1.sets (s.lookup address) =
      ((s.sets (s.lookup address)).fetchLine address src).1 ∧
    (∀ j, j ≠ s.lookup address → (s.fetchLine address src).1.sets j = s.sets j) := by
  have hdata : (c.fetchLine address src).1.data =
      memcpy c.data (c.victim address * c.lineSize) src (address &&& not64 (c.lineSize - 1))
        c.lineSize := by
    show memcpy c.data (c.victim address * c.lineSize) src (address &&& not64 c.offsetMask)
      c.lineSize = _
    rw [hmask]
  refine ⟨?_, ?_, ?_, ?_⟩
  · intro k hk
    rw [hdata]
    simp [memcpy, hk]
  · intro j k hj hk
    rw [hdata]
    unfold memcpy
    rw [if_neg (slot_disjoint j _ _ k hj hk)]
  · simp [SACache.fetchLine, SACache.withSet]
  · intro j hj
    simp [SACache.fetchLine, SACache.withSet, hj]

/-- C16, fetching the line of address 100 into the cache built on zero-filled
storage and into a set-associative cache of such sets. -/
theorem fetchLine_copies_one_line_witness :
    zeroCache.offsetMask = zeroCache.lineSize - 1 ∧
    zeroCache.victim 100 = 0 ∧
    zeroSetCache.lookup 100 = 1 ∧
    (zeroCache.fetchLine 100 byteRamp).1.data 5 = byteRamp 69 ∧
    (zeroCache.fetchLine 100 byteRamp).1.data (1 * 64 + 5) = 0 ∧
    (zeroSetCache.fetchLine 100 byteRamp).1.sets 0 = zeroSetCache.sets 0 :=
  ⟨rfl, by decide, by decide,
    ((fetchLine_copies_one_line zeroCache zeroSetCache 100 byteRamp rfl).1 5
      (by decide)).trans (by decide),
    ((fetchLine_copies_one_line zeroCache zeroSetCache 100 byteRamp rfl).2.1 1 5
      (by decide) (by decide)).trans (by decide),
    (fetchLine_copies_one_line zeroCache zeroSetCache 100 byteRamp rfl).2.2.2 0 (by decide)⟩

/-- C17 (instruction write bypasses the caches): for every hierarchy state,
address `A` and value, `writeInstruction32` leaves the instruction cache, the
data cache, the shared L2 and the access log as they were and changes main
memory in the 4 bytes of the aligned word of `A` only; for a 4-byte aligned
`A` these are the 4 bytes at `A`, which then hold the 32-bit value.  When the
line of `A` is found in the instruction cache or in the shared L2, the
`readInstruction32(A)` that follows returns what it returned before the
write, the value held by the cache. -/
theorem instruction_write_bypasses_caches (m : Corei7Memory) (A v : Nat) :
    (m.writeInstruction32 A v).l1i = m.l1i ∧
    (m.writeInstruction32 A v).l1d = m.l1d ∧
    (m.writeInstruction32 A v).l2 = m.l2 ∧
    (m.writeInstruction32 A v).log = m.log ∧
    (m.writeInstruction32 A v).mainMemory.size = m.mainMemory.size ∧
    (∀ k, ¬ (A / 4 * 4 ≤ k ∧ k < A / 4 * 4 + 4) →
      (m.writeInstruction32 A v).mainMemory.data k = m.mainMemory.data k) ∧
    (A % 4 = 0 → ∀ k, ¬ (A ≤ k ∧ k < A + 4) →
      (m.writeInstruction32 A v).mainMemory.data k = m.mainMemory.data k) ∧
    (A % 4 = 0 → v < 2 ^ 32 → load32 (m.writeInstruction32 A v).mainMemory.data A = v) ∧
    ((m.l1i.read32 A).isSome = true ∨ (m.l2.read32 A).isSome = true →
      ((m.writeInstruction32 A v).readInstruction32 A).2 = (m.readInstruction32 A).2 ∧
      (m.readInstruction32 A).2 = (m.l1i.read32 A <|> m.l2.read32 A).getD 0) := by
  have hdata : (m.writeInstruction32 A v).mainMemory.data =
      store32 m.mainMemory.data (A / 4 * 4) v := rfl
  refine ⟨rfl, rfl, rfl, rfl, rfl, ?_, ?_, ?_, ?_⟩
  · intro k hk
    rw [hdata]
    unfold store32
    rw [if_neg hk]
  · intro hA k hk
    have hal : A / 4 * 4 = A := by omega
    rw [hdata, hal]
    unfold store32
    rw [if_neg hk]
  · intro hA hv
    have hal : A / 4 * 4 = A := by omega
    rw [hdata, hal, load32_store32 _ _ _ hv]
  · intro hres
    constructor
    · rw [readInstruction32_value, readInstruction32_value]
      show (m.l1i.read32 A <|> m.l2.read32 A).getD _ = (m.l1i.read32 A <|> m.l2.read32 A).getD _
      cases h1 : m.l1i.read32 A with
      | some x => simp
      | none =>
        cases h2 : m.l2.read32 A with
        | some y => simp
        | none => simp [h1, h2] at hres
    · rw [readInstruction32_value]
      cases h1 : m.l1i.read32 A with
      | some x => simp
      | none =>
        cases h2 : m.l2.read32 A with
        | some y => simp
        | none => simp [h1, h2] at hres

/-- C17, in the hierarchy built on zero-filled storage.  At address 0, which
the instruction cache finds, main memory holds the new value after the write
and the read still returns 0.  At address 64, which no cache finds, the write
leaves the caches and the log as they were all the same. -/
theorem instruction_write_bypasses_caches_witness :
    ∃ m, Corei7Memory.construct 4096 zeroHierarchy = Construction.built m ∧
      (m.l1i.read32 0).isSome = true ∧
      ((m.writeInstruction32 0 3735928559).readInstruction32 0).2 = (m.readInstruction32 0).2 ∧
      (m.readInstruction32 0).2 = 0 ∧
      load32 (m.writeInstruction32 0 3735928559).mainMemory.data 0 = 3735928559 ∧
      m.l1i.read32 64 = none ∧ m.l2.read32 64 = none ∧
      (m.writeInstruction32 64 7).l1i = m.l1i ∧
      (m.writeInstruction32 64 7).l1d = m.l1d ∧
      (m.writeInstruction32 64 7).l2 = m.l2 ∧
      (m.writeInstruction32 64 7).log = m.log := by
  refine ⟨_, rfl, by decide, ?_, by decide, ?_, by decide, by decide, ?_, ?_, ?_, ?_⟩
  · exact ((instruction_write_bypasses_caches _ 0 3735928559).2.2.2.2.2.2.2.2
      (Or.inl (by decide))).1
  · exact (instruction_write_bypasses_caches _ 0 3735928559).2.2.2.2.2.2.2.1
      (by decide) (by decide)
  · exact (instruction_write_bypasses_caches _ 64 7).1
  · exact (instruction_write_bypasses_caches _ 64 7).2.1
  · exact (instruction_write_bypasses_caches _ 64 7).2.2.1
  · exact (instruction_write_bypasses_caches _ 64 7).2.2.2.1

namespace Corei7Memory

/-- The main memory after the block that fetches into the shared L2 does not
depend on the private caches. -/
theorem fetchIntoL2_mainMemory_l1 (m : Corei7Memory) (i d : SACache) (A : Nat) :
    (Corei7Memory.fetchIntoL2 { m with l1i := i, l1d := d } A).mainMemory =
      (m.fetchIntoL2 A).mainMemory := by
  unfold fetchIntoL2
  show (match m.l2.fetchLine A m.mainMemory.getData with
    | (l2, some (data, oldLine)) => _
    | (l2, none) => _ : Corei7Memory).mainMemory = _
  rcases h : m.l2.fetchLine A m.mainMemory.getData with ⟨l2, _ | ⟨dat, o⟩⟩ <;> rfl

/-- The main memory after `readInstruction32`. -/
theorem readInstruction32_mainMemory (m : Corei7Memory) (A : Nat) :
    (m.readInstruction32 A).1.mainMemory =
      if (m.l1i.read32 A).isSome || (m.l2.read32 A).isSome then m.mainMemory
      else (m.fetchIntoL2 A).mainMemory := by
  unfold readInstruction32
  cases h1 : m.l1i.read32 A with
  | some v => simp [memlog]
  | none =>
    cases h2 : m.l2.read32 A with
    | some v => simp [memlog, fetchIntoL1i]
    | none =>
      simp only [memlog, fetchIntoL1i]
      exact fetchIntoL2_mainMemory_l1 m _ m.l1d A

/-- The main memory after `readData32`. -/
theorem readData32_mainMemory (m : Corei7Memory) (A : Nat) :
    (m.readData32 A).1.mainMemory =
      if (m.l1d.read32 A).isSome || (m.l2.read32 A).isSome then m.mainMemory
      else (m.fetchIntoL2 A).mainMemory := by
  unfold readData32
  cases h1 : m.l1d.read32 A with
  | some v => simp [memlog]
  | none =>
    cases h2 : m.l2.read32 A with
    | some v => simp [memlog, fetchIntoL1d]
    | none =>
      simp only [memlog, fetchIntoL1d]
      exact fetchIntoL2_mainMemory_l1 m m.l1i _ A

/-- The main memory after `readData64`. -/
theorem readData64_mainMemory (m : Corei7Memory) (A : Nat) :
    (m.readData64 A).1.mainMemory =
      if (m.l1d.read64 A).isSome || (m.l2.read64 A).isSome then m.mainMemory
      else (m.fetchIntoL2 A).mainMemory := by
  unfold readData64
  cases h1 : m.l1d.read64 A with
  | some v => simp
  | none =>
    cases h2 : m.l2.read64 A with
    | some v => simp [memlog, fetchIntoL1d]
    | none =>
      simp only [memlog, fetchIntoL1d]
      exact fetchIntoL2_mainMemory_l1 m m.l1i _ A

end Corei7Memory

/-- C18 (L1 eviction write-back on reads) does not hold of the code: the
result of the `fetchLine` call on the private cache is dropped.  In a
hierarchy whose data cache holds the line of tag 4096 in the slot the FIFO
cursor points to, `writeData32(4096, 171)` makes that line dirty; the
`readData32(512)` that follows reaches level 3 and its fetch into the data
cache evicts the dirty line (first byte 171, tag 4096); afterwards main memory
still holds 0 at address 4096. -/
theorem l1_eviction_not_written_back :
    ∃ m, Corei7Memory.construct 16384 staleL1Hierarchy = Construction.built m ∧
      (m.writeData32 4096 171).l1d.read32 4096 = some 171 ∧
      ((m.writeData32 4096 171).l1d.fetchLine 512
          (m.writeData32 4096 171).mainMemory.getData).2.map (fun r => (r.1 0, r.2))
        = some (171, 4096) ∧
      ((m.writeData32 4096 171).readData32 512).1.log =
        [⟨EventKind.WRITE32, 4096, 3⟩, ⟨EventKind.READ32, 512, 3⟩] ∧
      ((m.writeData32 4096 171).readData32 512).1.mainMemory.data 4096 = 0 := by
  refine ⟨_, rfl, ?_⟩
  decide

/-- C18 as amended: on a read the line evicted from the private L1 is
discarded.  For every hierarchy state and address, main memory after
`readInstruction32`, `readData32` or `readData64` is the main memory before
the access when the private cache or the shared L2 hits, and otherwise the
main memory left by the block that fetches the line into the shared L2 and
writes back what the shared L2 evicts; that memory is the same whatever the
private caches hold. -/
theorem l1_eviction_is_discarded (m : Corei7Memory) (i d : SACache) (A : Nat) :
    ((m.readInstruction32 A).1.mainMemory =
        if (m.l1i.read32 A).isSome || (m.l2.read32 A).isSome then m.mainMemory
        else (m.fetchIntoL2 A).mainMemory) ∧
    ((m.readData32 A).1.mainMemory =
        if (m.l1d.read32 A).isSome || (m.l2.read32 A).isSome then m.mainMemory
        else (m.fetchIntoL2 A).mainMemory) ∧
    ((m.readData64 A).1.mainMemory =
        if (m.l1d.read64 A).isSome || (m.l2.read64 A).isSome then m.mainMemory
        else (m.fetchIntoL2 A).mainMemory) ∧
    (Corei7Memory.fetchIntoL2 { m with l1i := i, l1d := d } A).mainMemory =
      (m.fetchIntoL2 A).mainMemory :=
  ⟨readInstruction32_mainMemory m A, readData32_mainMemory m A, readData64_mainMemory m A,
    fetchIntoL2_mainMemory_l1 m i d A⟩

/-- A power of two below `2 ^ 32` passes `potencia2`. -/
theorem potencia2_two_pow (k : Nat) (hk : k < 32) : potencia2 (2 ^ k) = true :=
  (potencia2_iff _).2 ⟨k, hk, rfl⟩

/-- When the constructor of every set succeeds, the loop that builds the sets
succeeds and stores what each constructor built. -/
theorem SACache.buildSets_of_valid (setSize lineSize : Nat) (raw : Nat → RawStorage)
    (f : Nat → FACache)
    (hf : ∀ i, FACache.construct setSize lineSize (raw i) = Construction.built (f i)) :
    ∀ n, ∃ sets, SACache.buildSets setSize lineSize raw n = Construction.built sets ∧
      ∀ i, i < n → sets i = f i := by
  intro n
  induction n with
  | zero => exact ⟨_, rfl, fun i hi => absurd hi (Nat.not_lt_zero i)⟩
  | succ n ih =>
    obtain ⟨sets, hs, hsets⟩ := ih
    refine ⟨fun j => if j = n then f n else sets j, ?_, ?_⟩
    · simp only [SACache.buildSets, hs, hf n]
    · intro i hi
      by_cases h : i = n
      · simp [h]
      · simp only [h, if_false]
        exact hsets i (by omega)

/-- C19 (every valid configuration is accepted and sized consistently): for
every 32-bit size, line size and associativity that are powers of two with
the size a multiple of `lineSize * associativity`, and whatever the
uninitialised storage holds, the `SACache` constructor builds the object: it
has `size / (lineSize * associativity)` sets, and each set is the `FACache`
its constructor builds for `size / numSets` bytes and the line size, of that
size, that line size and the configured associativity. -/
theorem valid_configuration_accepted (size lineSize associativity k o a : Nat)
    (raw : Nat → RawStorage)
    (hk : size = 2 ^ k) (hsize : size < 2 ^ 32) (ho : lineSize = 2 ^ o)
    (ha : associativity = 2 ^ a) (hdiv : lineSize * associativity ∣ size) :
    ∃ c, SACache.construct size lineSize associativity raw = Construction.built c ∧
      c.numSets = size / (lineSize * associativity) ∧
      ∀ i, i < c.numSets →
        FACache.construct (size / c.numSets) lineSize (raw i) = Construction.built (c.sets i) ∧
        (c.sets i).size = size / c.numSets ∧
        (c.sets i).lineSize = lineSize ∧
        (c.sets i).associativity = associativity := by
  subst hk ho ha
  have hk32 : k < 32 := (Nat.pow_lt_pow_iff_right (by norm_num)).1 hsize
  have hoa : o + a ≤ k := by
    rw [← Nat.pow_add] at hdiv
    exact (Nat.pow_dvd_pow_iff_le_right (by norm_num)).1 hdiv
  have hn : 2 ^ k / 2 ^ a / 2 ^ o = 2 ^ (k - a - o) := by
    rw [Nat.pow_div (by omega) (by norm_num), Nat.pow_div (by omega) (by norm_num)]
  have hn2 : 2 ^ k / (2 ^ o * 2 ^ a) = 2 ^ (k - a - o) := by
    rw [← hn, Nat.div_div_eq_div_mul, Nat.mul_comm]
  have hss : 2 ^ k / 2 ^ (k - a - o) = 2 ^ (a + o) := by
    rw [Nat.pow_div (by omega) (by norm_num)]
    congr 1
    omega
  have hprod : 2 ^ (k - a - o) * 2 ^ a * 2 ^ o = 2 ^ k := by
    rw [← Nat.pow_add, ← Nat.pow_add]
    congr 1
    omega
  have hassoc : 2 ^ (a + o) / 2 ^ o = 2 ^ a := by
    rw [Nat.pow_div (by omega) (by norm_num)]
    congr 1
    omega
  have hset : ∀ i, FACache.construct (2 ^ (a + o)) (2 ^ o) (raw i) = Construction.built
      { size := 2 ^ (a + o), lineSize := 2 ^ o, associativity := 2 ^ (a + o) / 2 ^ o
        numSets := 1, offsetMask := 2 ^ o - 1, writeIndex := (raw i).writeIndex
        directory := (raw i).directory, data := (raw i).data } := by
    intro i
    apply FACache.construct_of_valid
    · exact Nat.pos_iff_ne_zero.1 (Nat.two_pow_pos o)
    · rw [hassoc, ← Nat.pow_add]
      exact Nat.mod_eq_of_lt
        (lt_of_le_of_lt (Nat.pow_le_pow_right (by norm_num) (by omega)) hsize)
    · exact potencia2_two_pow _ (by omega)
    · exact potencia2_two_pow _ (by omega)
    · rw [hassoc]; exact potencia2_two_pow _ (by omega)
  obtain ⟨sets, hb, hsets⟩ := SACache.buildSets_of_valid _ _ raw _ hset (2 ^ (k - a - o))
  have hvalid : (decide (2 ^ k / 2 ^ a / 2 ^ o * 2 ^ a * 2 ^ o % 2 ^ 32 = 2 ^ k)
      && potencia2 (2 ^ k) && potencia2 (2 ^ k / 2 ^ a / 2 ^ o) && potencia2 (2 ^ o)
      && potencia2 (2 ^ a)) = true := by
    have h1 : 2 ^ k / 2 ^ a / 2 ^ o * 2 ^ a * 2 ^ o % 2 ^ 32 = 2 ^ k := by
      rw [hn, hprod]; exact Nat.mod_eq_of_lt hsize
    rw [decide_eq_true h1, hn, potencia2_two_pow k hk32, potencia2_two_pow _ (by omega),
      potencia2_two_pow o (by omega), potencia2_two_pow a (by omega)]
    rfl
  have hz : ¬ (2 ^ a = 0 ∨ 2 ^ o = 0) := by
    rintro (h | h)
    · exact absurd h (Nat.pos_iff_ne_zero.1 (Nat.two_pow_pos a))
    · exact absurd h (Nat.pos_iff_ne_zero.1 (Nat.two_pow_pos o))
  have hc : SACache.construct (2 ^ k) (2 ^ o) (2 ^ a) raw = Construction.built
      { size := 2 ^ k, lineSize := 2 ^ o, associativity := 2 ^ a
        numSets := 2 ^ k / 2 ^ a / 2 ^ o, offsetMask := 2 ^ o - 1
        lookupShift := ffs (2 ^ o) - 1
        lookupMask := ((2 ^ k / 2 ^ a / 2 ^ o - 1) <<< (ffs (2 ^ o) - 1)) % 2 ^ 32
        sets := sets } := by
    unfold SACache.construct
    simp only [hz, if_false]
    simp only [hvalid]
    rw [hn, hss]
    simp only [hb]
    rfl
  refine ⟨_, hc, ?_, ?_⟩
  · show 2 ^ k / 2 ^ a / 2 ^ o = _
    rw [hn, hn2]
  · intro i hi
    have hi2 : i < 2 ^ (k - a - o) := by
      have : i < 2 ^ k / 2 ^ a / 2 ^ o := hi
      rwa [hn] at this
    show FACache.construct (2 ^ k / (2 ^ k / 2 ^ a / 2 ^ o)) (2 ^ o) (raw i)
        = Construction.built (sets i) ∧
      (sets i).size = 2 ^ k / (2 ^ k / 2 ^ a / 2 ^ o) ∧ (sets i).lineSize = 2 ^ o ∧
      (sets i).associativity = 2 ^ a
    rw [hn, hss, hsets i hi2]
    exact ⟨hset i, rfl, rfl, hassoc⟩

/-- C19, for the shared L2 of the hierarchy: 8 KiB, 64-byte lines, 16 ways. -/
theorem valid_configuration_accepted_witness :
    ∃ c, SACache.construct 8192 64 16 (fun _ => zeroStorage) = Construction.built c ∧
      c.numSets = 8192 / (64 * 16) ∧
      ∀ i, i < c.numSets →
        FACache.construct (8192 / c.numSets) 64 zeroStorage = Construction.built (c.sets i) ∧
        (c.sets i).size = 8192 / c.numSets ∧
        (c.sets i).lineSize = 64 ∧
        (c.sets i).associativity = 16 :=
  valid_configuration_accepted 8192 64 16 13 6 4 (fun _ => zeroStorage) (by decide)
    (by decide) (by decide) (by decide) (by decide)

/-- The loop of `findTag` stops at the first slot, from `i` on, whose entry with
the lowest bit cleared is the tag. -/
theorem FACache.findTagLoop_eq_some (d : Nat → Nat) (t : Nat) :
    ∀ n i j, FACache.findTagLoop d t i n = some j ↔
      (i ≤ j ∧ j < i + n ∧ d j &&& clearDirty = t ∧
        ∀ k, i ≤ k → k < j → d k &&& clearDirty ≠ t) := by
  intro n
  induction n with
  | zero =>
    intro i j
    simp only [FACache.findTagLoop]
    constructor
    · intro h; cases h
    · rintro ⟨h1, h2, -, -⟩; omega
  | succ n ih =>
    intro i j
    simp only [FACache.findTagLoop]
    by_cases h : d i &&& clearDirty = t
    · rw [if_pos h]
      constructor
      · intro hj
        have hij : i = j := Option.some.inj hj
        subst hij
        exact ⟨Nat.le_refl _, by omega, h, fun k h1 h2 => by omega⟩
      · rintro ⟨h1, -, -, h4⟩
        rcases Nat.eq_or_lt_of_le h1 with e | l
        · rw [e]
        · exact absurd h (h4 i (Nat.le_refl _) l)
    · rw [if_neg h, ih]
      constructor
      · rintro ⟨h1, h2, h3, h4⟩
        refine ⟨by omega, by omega, h3, fun k hk1 hk2 => ?_⟩
        rcases Nat.eq_or_lt_of_le hk1 with e | l
        · rw [← e]; exact h
        · exact h4 k l hk2
      · rintro ⟨h1, h2, h3, h4⟩
        have hne : i ≠ j := by
          intro e; rw [e] at h; exact h h3
        exact ⟨by omega, by omega, h3, fun k hk1 hk2 => h4 k (by omega) hk2⟩

/-- The loop of `findTag` fails when no slot, from `i` on, holds the tag. -/
theorem FACache.findTagLoop_eq_none (d : Nat → Nat) (t : Nat) :
    ∀ n i, FACache.findTagLoop d t i n = none ↔
      ∀ k, i ≤ k → k < i + n → d k &&& clearDirty ≠ t := by
  intro n
  induction n with
  | zero =>
    intro i
    simp only [FACache.findTagLoop]
    exact ⟨fun _ k h1 h2 => by omega, fun _ => trivial⟩
  | succ n ih =>
    intro i
    simp only [FACache.findTagLoop]
    by_cases h : d i &&& clearDirty = t
    · rw [if_pos h]
      constructor
      · intro hj; cases hj
      · intro hall; exact absurd h (hall i (Nat.le_refl _) (by omega))
    · rw [if_neg h, ih]
      constructor
      · intro hall k hk1 hk2
        rcases Nat.eq_or_lt_of_le hk1 with e | l
        · rw [← e]; exact h
        · exact hall k l (by omega)
      · intro hall k hk1 hk2
        exact hall k (by omega) (by omega)

/-- A lookup gives the same answer after the dirty bit of a slot is cleared. -/
theorem FACache.findTag_clearDirtyBit (c : FACache) (idx t : Nat) :
    (c.clearDirtyBit idx).findTag t = c.findTag t := by
  unfold FACache.findTag FACache.clearDirtyBit
  apply FACache.findTagLoop_congr
  intro k
  show (if k = idx then c.directory k &&& clearDirty else c.directory k) &&& clearDirty = _
  split
  · exact and_clearDirty_and_clearDirty _
  · rfl

/-- C20 (lookup ignores the dirty flag): for every cache state (every line
size, 1 included), every tag `t` and slot `idx`, `findTag(t)` answers the same
after `setDirty(idx)` and after the dirty bit of `idx` is cleared, and the same
in every directory whose entries differ from the present ones in their dirty
bits only; it returns the first slot below `associativity` whose entry with
the dirty bit cleared is `t`, and fails exactly when there is none. -/
theorem lookup_ignores_dirty_flag (c : FACache) (t idx : Nat) (e : Nat → Nat) :
    (c.setDirty idx).findTag t = c.findTag t ∧
    (c.clearDirtyBit idx).findTag t = c.findTag t ∧
    ((∀ k, e k &&& clearDirty = c.directory k &&& clearDirty) →
      FACache.findTag { c with directory := e } t = c.findTag t) ∧
    (∀ i, c.findTag t = some i ↔
      (i < c.associativity ∧ c.directory i &&& clearDirty = t ∧
        ∀ j, j < i → c.directory j &&& clearDirty ≠ t)) ∧
    (c.findTag t = none ↔ ∀ j, j < c.associativity → c.directory j &&& clearDirty ≠ t) := by
  refine ⟨FACache.findTag_setDirty c idx t, FACache.findTag_clearDirtyBit c idx t, ?_, ?_, ?_⟩
  · intro h
    exact FACache.findTagLoop_congr _ _ t h _ _
  · intro i
    unfold FACache.findTag
    rw [FACache.findTagLoop_eq_some]
    constructor
    · rintro ⟨-, h2, h3, h4⟩
      exact ⟨by omega, h3, fun j hj => h4 j (Nat.zero_le _) hj⟩
    · rintro ⟨h2, h3, h4⟩
      exact ⟨Nat.zero_le _, by omega, h3, fun j _ hj => h4 j hj⟩
  · unfold FACache.findTag
    rw [FACache.findTagLoop_eq_none]
    constructor
    · intro h j hj; exact h j (Nat.zero_le _) (by omega)
    · intro h j _ hj; exact h j (by omega)

/-- C20, in a 4-byte cache with 1-byte lines whose directory reads 4, 5, 6, 7:
tag 6 is found in slot 2 before and after the dirty bits change; the odd tag 5
is not found, since no entry read with its dirty bit cleared is odd. -/
theorem lookup_ignores_dirty_flag_witness :
    ∃ c, FACache.construct 4 1 ⟨fun i => i + 4, fun _ => 0, 0⟩ = Construction.built c ∧
      c.lineSize = 1 ∧
      c.findTag 6 = some 2 ∧
      (c.setDirty 2).directory 2 = 7 ∧ (c.setDirty 2).findTag 6 = some 2 ∧
      (c.clearDirtyBit 3).directory 3 = 6 ∧ (c.clearDirtyBit 3).findTag 6 = some 2 ∧
      c.findTag 5 = none := by
  refine ⟨_, rfl, rfl, by decide, by decide, ?_, by decide, ?_, by decide⟩
  · exact ((lookup_ignores_dirty_flag _ 6 2 (fun _ => 0)).1).trans (by decide)
  · exact ((lookup_ignores_dirty_flag _ 6 3 (fun _ => 0)).2.1).trans (by decide)

/-- C21 (tag/data consistency is preserved by fetchLine) does not hold of the
code: `fetchLine` replaces the bytes of the victim slot and keeps its directory
entry.  The cache built on zero-filled storage is consistent with a backing
buffer whose line 0 is zero-filled (every slot reads the clean tag 0 and holds
zeros); `fetchLine(64, src)` picks slot 0 through the cursor, and afterwards
slot 0 still reads the clean tag 0 and holds the bytes of line 64, so the
cache is no longer consistent: `read32(0)` hits and returns 0x01010101 where
the backing buffer holds 0, and the value read at address 0 has changed from 0
through the fetch of another line. -/
theorem fetchLine_breaks_consistency :
    FACache.construct 256 64 zeroStorage = Construction.built zeroCache ∧
    zeroCache.consistent lineStamp ∧
    zeroCache.victim 64 = 0 ∧
    (zeroCache.fetchLine 64 lineStamp).1.directory 0 = 0 ∧
    (zeroCache.fetchLine 64 lineStamp).1.isDirty 0 = false ∧
    (zeroCache.fetchLine 64 lineStamp).1.data 0 = 1 ∧
    ¬ (zeroCache.fetchLine 64 lineStamp).1.consistent lineStamp ∧
    zeroCache.read32 0 = some 0 ∧
    load32 lineStamp 0 = 0 ∧
    (zeroCache.fetchLine 64 lineStamp).1.read32 0 = some 16843009 := by
  refine ⟨rfl, ?_, by decide, by decide, by decide, by decide, ?_, by decide, by decide,
    by decide⟩
  · intro i _ _ k hk
    have hk64 : k < 64 := hk
    show (0 : Nat) = (0 + k) / 64
    rw [Nat.zero_add, Nat.div_eq_of_lt hk64]
  · intro h
    have h0 := h 0 (by decide) (by decide) 0 (by decide)
    revert h0
    decide

end Armethyst
